import Mathlib

/-!
# kiln: `compile-built-releases`

A shallow embedding of `commands/compile_built_releases.go` and proofs about it.

Conventions of the embedding

* Go values of the packages `release`, `cargo`, `builder` are structures with the
  source's field names.
* The collaborators the command talks to (release sources, the release uploader,
  the BOSH director and its deployment, the Kilnfile loader, the file system, the
  digest library) are records of functions: for one run, what a collaborator
  answers is a function of the arguments of the call.
* Every call that reaches a collaborator with an effect is recorded, in order, as
  an `Event`, and so is every verification of a file against a declared digest,
  with the error it returned; a computation is a `Run`: an outcome (value, returned
  error, or panic) together with the events it produced.
* A Go `nil` slice and an empty slice are both the list `[]`.
* The panics of the code are outcomes of their own: the failed deletion of the
  deployment in the deferred function, `uuid.Must`, the type assertion on the stemcell
  metadata, and the slug constructors of the director client on an empty part.
-/

namespace Kiln

/-! ## Errors, events, runs -/

/-- Go `error` values: a message, possibly wrapping a cause (`fmt.Errorf("...: %w", err)`). -/
inductive Error where
  | msg (text : String)
  | wrap (context : String) (cause : Error)
  deriving DecidableEq, Repr

/-- Type `release.ID`. -/
structure ID where
  Name : String
  Version : String
  deriving DecidableEq, Repr

/-- Type `release.Remote` (the embedded `ID` is the field `ID`). -/
structure Remote where
  ID : ID
  SourceID : String
  RemotePath : String
  deriving DecidableEq, Repr

/-- Type `release.Local`. -/
structure Local where
  ID : ID
  LocalPath : String
  SHA1 : String
  deriving DecidableEq, Repr

/-- Type `release.Requirement`. -/
structure Requirement where
  Name : String
  Version : String
  StemcellOS : String
  StemcellVersion : String
  deriving DecidableEq, Repr

/-- Type `cargo.Stemcell`. -/
structure Stemcell where
  OS : String
  Version : String
  deriving DecidableEq, Repr

/-- Type `cargo.ReleaseLock`. -/
structure ReleaseLock where
  Name : String
  Version : String
  RemoteSource : String
  RemotePath : String
  SHA1 : String
  deriving DecidableEq, Repr

/-- Type `cargo.KilnfileLock`. -/
structure KilnfileLock where
  Releases : List ReleaseLock
  Stemcell : Stemcell
  deriving DecidableEq, Repr

/-- Type `builder.StemcellManifest` (the fields the command reads). -/
structure StemcellManifest where
  OperatingSystem : String
  Version : String
  deriving DecidableEq, Repr

/-- Type `remoteReleaseWithSHA1`. -/
structure remoteReleaseWithSHA1 where
  Remote : Remote
  SHA1 : String
  deriving DecidableEq, Repr

/-- What `fetcher.ReleaseSource` exposes to this command. -/
structure ReleaseSource where
  ID : String
  Publishable : Bool
  deriving DecidableEq, Repr

/-- Interface `fetcher.MultiReleaseSource`. -/
structure MultiReleaseSource where
  FindByID : String → Except Error ReleaseSource
  GetMatchedRelease : Requirement → Except Error (Remote × Bool)
  DownloadRelease : String → Remote → Nat → Except Error Local

/-! ## `findBuiltReleases` -/

/-- The `release.Remote` that `findBuiltReleases` appends for a lock entry. -/
def findBuiltReleases.remoteOf (lock : ReleaseLock) : Remote :=
  { ID := { Name := lock.Name, Version := lock.Version },
    SourceID := lock.RemoteSource,
    RemotePath := lock.RemotePath }

/-- The `for _, lock := range kilnfileLock.Releases` loop of `findBuiltReleases`;
`builtReleases` is the slice built so far. -/
def findBuiltReleases.loop (allReleaseSources : MultiReleaseSource) :
    List ReleaseLock → List Remote → List Remote × Option Error
  | [], builtReleases => (builtReleases, none)
  | lock :: rest, builtReleases =>
    match allReleaseSources.FindByID lock.RemoteSource with
    | .error err => ([], some err)
    | .ok src =>
      if !src.Publishable then
        findBuiltReleases.loop allReleaseSources rest
          (builtReleases ++ [findBuiltReleases.remoteOf lock])
      else
        findBuiltReleases.loop allReleaseSources rest builtReleases

/-- Function `findBuiltReleases`: the pair `(builtReleases, err)` it returns. -/
def findBuiltReleases (allReleaseSources : MultiReleaseSource) (kilnfileLock : KilnfileLock) :
    List Remote × Option Error :=
  findBuiltReleases.loop allReleaseSources kilnfileLock.Releases []

/-- Whether `FindByID` finds the source of a lock entry. -/
def sourceKnown (s : MultiReleaseSource) (lock : ReleaseLock) : Bool :=
  match s.FindByID lock.RemoteSource with
  | .ok _ => true
  | .error _ => false

/-- Whether the source of a lock entry is found and reports `Publishable() = false`. -/
def sourceNotPublishable (s : MultiReleaseSource) (lock : ReleaseLock) : Bool :=
  match s.FindByID lock.RemoteSource with
  | .ok src => !src.Publishable
  | .error _ => false

/-! ## Events and runs -/

/-- An open file (`*os.File`), known by the path it was opened at. -/
structure File where
  path : String
  deriving DecidableEq, Repr

/-- The calls that reach a collaborator: release sources, the BOSH director and
its deployment, the release uploader and the Kilnfile loader; and the verification
of a file against a digest, with the error returned (`none` for nil). -/
inductive Event where
  | LoadKilnfiles (kilnfile : String)
  | GetMatchedRelease (spec : Requirement)
  | DownloadRelease (releasesDir : String) (remote : Remote)
  | BoshDirectorFactory
  | UploadReleaseFile (file : File)
  | UploadStemcellFile (file : File)
  | FindDeployment (name : String)
  | Update (manifest : String)
  | Delete
  | CleanUp
  | ExportRelease (rel : ID)
  | DownloadResourceUnchecked (blobstoreID : String) (out : File)
  | VerifyFilePath (digest : String) (path : String) (err : Option Error)
  | UploadRelease (spec : Requirement) (file : File)
  | SaveKilnfileLock (kilnfile : String) (kilnfileLock : KilnfileLock)
  deriving DecidableEq, Repr

/-- How a Go call ends: it returns a value with a nil error, returns a non-nil
error, or panics. -/
inductive Outcome (α : Type) where
  | ok (value : α)
  | error (err : Error)
  | panic (err : Error)
  deriving DecidableEq, Repr

/-- A finished computation: how it ended and the collaborator calls it made, in order. -/
structure Run (α : Type) where
  outcome : Outcome α
  trace : List Event
  deriving DecidableEq, Repr

/-- A computation that returns `a` and calls nothing. -/
def Run.pure {α : Type} (a : α) : Run α := ⟨.ok a, []⟩

/-- Sequencing: the continuation runs only when the first part returned without
error; an error or a panic ends the computation there. -/
def Run.bind {α β : Type} (r : Run α) (k : α → Run β) : Run β :=
  match r.outcome with
  | .ok a => ⟨(k a).outcome, r.trace ++ (k a).trace⟩
  | .error e => ⟨.error e, r.trace⟩
  | .panic e => ⟨.panic e, r.trace⟩

/-- Statement `return ..., err`. -/
def Run.fail {α : Type} (err : Error) : Run α := ⟨.error err, []⟩

/-- A local operation (no collaborator involved) that may return an error. -/
def Run.ofExcept {α : Type} (res : Except Error α) : Run α :=
  match res with
  | .ok a => ⟨.ok a, []⟩
  | .error e => ⟨.error e, []⟩

/-- A call to a collaborator: the call is recorded, and its answer is the outcome. -/
def Run.call {α : Type} (ev : Event) (res : Except Error α) : Run α :=
  match res with
  | .ok a => ⟨.ok a, [ev]⟩
  | .error e => ⟨.error e, [ev]⟩

/-- The error a call returned, `none` for a nil error. -/
def returnedError {α : Type} (res : Except Error α) : Option Error :=
  match res with
  | .ok _ => none
  | .error e => some e

/-- The pattern `if err != nil { return ..., fmt.Errorf("context: %w", err) }`. -/
def Run.wrapErr {α : Type} (context : String) (r : Run α) : Run α :=
  match r.outcome with
  | .error e => ⟨.error (.wrap context e), r.trace⟩
  | _ => r

/-- A function body with one deferred function: the deferred function runs when
the body returns or panics; a panic of the deferred function replaces the outcome,
otherwise the outcome of the body stands (the results are unnamed, so the deferred
function cannot change them). -/
def Run.deferring {α : Type} (body : Run α) (deferred : Run Unit) : Run α :=
  ⟨match deferred.outcome with
    | .panic e => .panic e
    | _ => body.outcome,
   body.trace ++ deferred.trace⟩

/-- The verb `%q` of `fmt` on a string without characters to escape. -/
def quote (s : String) : String := "\"" ++ s ++ "\""

/-! ## Collaborators -/

/-- Field `Options` of `CompileBuiltReleases`. -/
structure Options where
  ReleasesDir : String
  StemcellFile : String
  UploadTargetID : String
  Kilnfile : String
  VariablesFiles : List String
  Variables : List String
  deriving DecidableEq, Repr

/-- Interface `KilnfileLoader`, over the type `K` of a parsed Kilnfile (`cargo.Kilnfile`). -/
structure KilnfileLoader (K : Type) where
  LoadKilnfiles : String → List String → List String → Except Error (K × KilnfileLock)
  SaveKilnfileLock : String → KilnfileLock → Except Error Unit

/-- Interface `fetcher.ReleaseUploader`. -/
structure ReleaseUploader where
  UploadRelease : Requirement → File → Except Error Remote

/-- Type `boshdir.ExportReleaseResult`. -/
structure ExportReleaseResult where
  BlobstoreID : String
  SHA1 : String
  deriving DecidableEq, Repr

/-- Type `boshdir.ReleaseSlug`. -/
structure ReleaseSlug where
  name : String
  version : String
  deriving DecidableEq, Repr

/-- Type `boshdir.OSVersionSlug`. -/
structure OSVersionSlug where
  os : String
  version : String
  deriving DecidableEq, Repr

/-- Interface `boshdir.Deployment` (the methods the command calls). -/
structure Deployment where
  Update : String → Except Error Unit
  Delete : Bool → Except Error Unit
  ExportRelease : ReleaseSlug → OSVersionSlug → Except Error ExportReleaseResult

/-- Interface `BoshDirector`. -/
structure BoshDirector where
  UploadStemcellFile : File → Bool → Except Error Unit
  UploadReleaseFile : File → Bool → Bool → Except Error Unit
  FindDeployment : String → Except Error Deployment
  DownloadResourceUnchecked : String → File → Except Error Unit
  CleanUp : Bool → Bool → Bool → Except Error Unit

/-- The package-level facilities the command calls: `jhanda.Parse`, `os`,
`path/filepath`, `crypto/sha1` with `io.Copy`, `uuid`, `manifest_generator`, the
stemcell manifest reader and `boshcrypto`. `Read` gives the `Metadata` of the part
read, `none` when it is not a `builder.StemcellManifest`. -/
structure Runtime where
  Parse : Options → List String → Except Error Options
  Open : String → Except Error File
  OpenFile : String → Except Error File
  Close : File → Except Error Unit
  Join : String → String → String
  sha1Hex : File → Except Error String
  NewRandom : Except Error String
  Generate : String → List ID → StemcellManifest → Except Error String
  Read : String → Except Error (Option StemcellManifest)
  ParseMultipleDigest : String → Except Error String
  VerifyFilePath : String → String → Except Error Unit

/-- Constant `fetcher.DefaultDownloadThreadCount` (the value 0 lets the source choose). -/
def DefaultDownloadThreadCount : Nat := 0

/-- Type `CompileBuiltReleases` (the logger is left out: it only prints). -/
structure CompileBuiltReleases (K : Type) where
  KilnfileLoader : KilnfileLoader K
  MultiReleaseSourceProvider : K → Bool → MultiReleaseSource
  ReleaseUploaderFinder : K → String → Except Error ReleaseUploader
  BoshDirectorFactory : Except Error BoshDirector
  Options : Options

/-! ## `downloadPreCompiledReleases` -/

/-- The `release.Requirement` built for a candidate in `downloadPreCompiledReleases`. -/
def downloadPreCompiledReleases.spec (stemcell : Stemcell) (builtRelease : Remote) :
    Requirement :=
  { Name := builtRelease.ID.Name,
    Version := builtRelease.ID.Version,
    StemcellOS := stemcell.OS,
    StemcellVersion := stemcell.Version }

/-- The `for _, builtRelease := range builtReleases` loop of
`downloadPreCompiledReleases`, with the two slices built so far. -/
def downloadPreCompiledReleases.loop {K : Type} (f : CompileBuiltReleases K)
    (publishableReleaseSources : MultiReleaseSource) (stemcell : Stemcell) :
    List Remote → List remoteReleaseWithSHA1 → List Remote →
      Run (List remoteReleaseWithSHA1 × List Remote)
  | [], preCompiledReleases, remainingBuiltReleases =>
    Run.pure (preCompiledReleases, remainingBuiltReleases)
  | builtRelease :: rest, preCompiledReleases, remainingBuiltReleases =>
    let spec := downloadPreCompiledReleases.spec stemcell builtRelease
    Run.bind
      (Run.wrapErr
        ("error searching for pre-compiled release for " ++ quote builtRelease.ID.Name)
        (Run.call (.GetMatchedRelease spec) (publishableReleaseSources.GetMatchedRelease spec)))
      fun matched =>
        if !matched.2 then
          downloadPreCompiledReleases.loop f publishableReleaseSources stemcell rest
            preCompiledReleases (remainingBuiltReleases ++ [builtRelease])
        else
          Run.bind
            (Run.wrapErr
              ("error downloading pre-compiled release for " ++ quote builtRelease.ID.Name)
              (Run.call (.DownloadRelease f.Options.ReleasesDir matched.1)
                (publishableReleaseSources.DownloadRelease f.Options.ReleasesDir matched.1
                  DefaultDownloadThreadCount)))
            fun localRelease =>
              downloadPreCompiledReleases.loop f publishableReleaseSources stemcell rest
                (preCompiledReleases ++ [{ Remote := matched.1, SHA1 := localRelease.SHA1 }])
                remainingBuiltReleases

/-- Method `downloadPreCompiledReleases`. -/
def downloadPreCompiledReleases {K : Type} (f : CompileBuiltReleases K)
    (publishableReleaseSources : MultiReleaseSource) (builtReleases : List Remote)
    (stemcell : Stemcell) : Run (List remoteReleaseWithSHA1 × List Remote) :=
  downloadPreCompiledReleases.loop f publishableReleaseSources stemcell builtReleases [] []

/-! ## The compilation deployment -/

/-- The body of the `range builtReleases` loop of `uploadReleasesToDirector` for one
release: download it, open it, upload it to the director. -/
def uploadReleasesToDirector.step {K : Type} (rt : Runtime) (f : CompileBuiltReleases K)
    (releaseSource : MultiReleaseSource) (boshDirector : BoshDirector)
    (remoteRelease : Remote) : Run Unit :=
  Run.bind
    (Run.wrapErr
      ("failure downloading built release " ++ remoteRelease.ID.Name ++ "/" ++
        remoteRelease.ID.Version)
      (Run.call (.DownloadRelease f.Options.ReleasesDir remoteRelease)
        (releaseSource.DownloadRelease f.Options.ReleasesDir remoteRelease
          DefaultDownloadThreadCount)))
    fun localRelease =>
      Run.bind
        (Run.wrapErr ("opening local built release " ++ quote localRelease.LocalPath)
          (Run.ofExcept (rt.Open localRelease.LocalPath)))
        fun builtReleaseForUploading =>
          Run.wrapErr
            ("failure uploading release " ++ quote localRelease.LocalPath ++
              " to bosh director")
            (Run.call (.UploadReleaseFile builtReleaseForUploading)
              (boshDirector.UploadReleaseFile builtReleaseForUploading false false))

/-- The loop of `uploadReleasesToDirector`, with the `releaseIDs` built so far. -/
def uploadReleasesToDirector.loop {K : Type} (rt : Runtime) (f : CompileBuiltReleases K)
    (releaseSource : MultiReleaseSource) (boshDirector : BoshDirector) :
    List Remote → List ID → Run (List ID)
  | [], releaseIDs => Run.pure releaseIDs
  | remoteRelease :: rest, releaseIDs =>
    Run.bind (uploadReleasesToDirector.step rt f releaseSource boshDirector remoteRelease)
      fun _ =>
        uploadReleasesToDirector.loop rt f releaseSource boshDirector rest
          (releaseIDs ++ [remoteRelease.ID])

/-- Method `uploadReleasesToDirector`. -/
def uploadReleasesToDirector {K : Type} (rt : Runtime) (f : CompileBuiltReleases K)
    (builtReleases : List Remote) (releaseSource : MultiReleaseSource)
    (boshDirector : BoshDirector) : Run (List ID) :=
  uploadReleasesToDirector.loop rt f releaseSource boshDirector builtReleases []

/-- Method `uploadStemcellToDirector`. The type assertion on the metadata of the
part read panics when the metadata is not a stemcell manifest. -/
def uploadStemcellToDirector {K : Type} (rt : Runtime) (f : CompileBuiltReleases K)
    (boshDirector : BoshDirector) : Run StemcellManifest :=
  Run.bind
    (Run.wrapErr "opening stemcell" (Run.ofExcept (rt.Open f.Options.StemcellFile)))
    fun stemcellFile =>
      Run.bind
        (Run.wrapErr "failure uploading stemcell to bosh director"
          (Run.call (.UploadStemcellFile stemcellFile)
            (boshDirector.UploadStemcellFile stemcellFile false)))
        fun _ =>
          Run.bind
            (Run.wrapErr "couldn't parse manifest of stemcell"
              (Run.ofExcept (rt.Read f.Options.StemcellFile)))
            fun metadata =>
              match metadata with
              | some stemcellManifest => Run.pure stemcellManifest
              | none =>
                ⟨.panic (.msg "interface conversion: interface is not builder.StemcellManifest"),
                  []⟩

/-- Function `boshdir.NewOSVersionSlug` of the BOSH director client: it panics when
the OS or the version is empty. -/
def NewOSVersionSlug (os version : String) : Run OSVersionSlug :=
  if os = "" then ⟨.panic (.msg "Expected stemcell os to be non-empty"), []⟩
  else if version = "" then ⟨.panic (.msg "Expected stemcell version to be non-empty"), []⟩
  else Run.pure { os := os, version := version }

/-- Function `boshdir.NewReleaseSlug` of the BOSH director client: it panics when the
name or the version is empty. -/
def NewReleaseSlug (name version : String) : Run ReleaseSlug :=
  if name = "" then ⟨.panic (.msg "Expected release name to be non-empty"), []⟩
  else if version = "" then ⟨.panic (.msg "Expected release version to be non-empty"), []⟩
  else Run.pure { name := name, version := version }

/-- The file name of the compiled tarball of a release. -/
def downloadCompiledReleases.tarball (rel : ID) (stemcellManifest : StemcellManifest) :
    String :=
  rel.Name ++ "-" ++ rel.Version ++ "-" ++ stemcellManifest.OperatingSystem ++ "-" ++
    stemcellManifest.Version ++ ".tgz"

/-- The body of the `range releaseIDs` loop of `downloadCompiledReleases` for one
release: build the release slug (a panic when the name or the version is empty),
export, download to a file, compute the SHA1 of the file, and verify the file against
the digest of the export result. It gives the `release.Local` that the loop
appends. -/
def downloadCompiledReleases.step {K : Type} (rt : Runtime) (f : CompileBuiltReleases K)
    (stemcellManifest : StemcellManifest) (osVersionSlug : OSVersionSlug)
    (deployment : Deployment) (boshDirector : BoshDirector) (rel : ID) : Run Local :=
  let compiledTarballPath :=
    rt.Join f.Options.ReleasesDir (downloadCompiledReleases.tarball rel stemcellManifest)
  Run.bind (NewReleaseSlug rel.Name rel.Version)
    fun releaseSlug =>
  Run.bind
    (Run.wrapErr ("exporting release " ++ rel.Name)
      (Run.call (.ExportRelease rel) (deployment.ExportRelease releaseSlug osVersionSlug)))
    fun result =>
  Run.bind
    (Run.wrapErr ("creating compiled release file " ++ compiledTarballPath)
      (Run.ofExcept (rt.OpenFile compiledTarballPath)))
    fun fd =>
  Run.bind
    (Run.wrapErr ("downloading exported release " ++ rel.Name)
      (Run.call (.DownloadResourceUnchecked result.BlobstoreID fd)
        (boshDirector.DownloadResourceUnchecked result.BlobstoreID fd)))
    fun _ =>
  Run.bind
    (Run.wrapErr ("failed closing file " ++ compiledTarballPath)
      (Run.ofExcept (rt.Close fd)))
    fun _ =>
  Run.bind
    (Run.wrapErr ("failed reopening file " ++ compiledTarballPath)
      (Run.ofExcept (rt.Open compiledTarballPath)))
    fun fd =>
  Run.bind
    (Run.wrapErr ("failed calculating SHA1 for file file " ++ compiledTarballPath)
      (Run.ofExcept (rt.sha1Hex fd)))
    fun sum =>
  Run.bind
    (Run.wrapErr ("failed closing file " ++ compiledTarballPath)
      (Run.ofExcept (rt.Close fd)))
    fun _ =>
  Run.bind
    (Run.wrapErr ("error parsing SHA of downloaded release " ++ quote rel.Name)
      (Run.ofExcept (rt.ParseMultipleDigest result.SHA1)))
    fun expectedMultipleDigest =>
  Run.bind
    (Run.wrapErr ("compiled release " ++ quote rel.Name ++ " has an incorrect SHA")
      (Run.call
        (.VerifyFilePath expectedMultipleDigest compiledTarballPath
          (returnedError (rt.VerifyFilePath expectedMultipleDigest compiledTarballPath)))
        (rt.VerifyFilePath expectedMultipleDigest compiledTarballPath)))
    fun _ =>
  Run.pure
    { ID := { Name := rel.Name, Version := rel.Version },
      LocalPath := compiledTarballPath,
      SHA1 := sum }

/-- The loop of `downloadCompiledReleases`, with the `downloadedReleases` built so far. -/
def downloadCompiledReleases.loop {K : Type} (rt : Runtime) (f : CompileBuiltReleases K)
    (stemcellManifest : StemcellManifest) (osVersionSlug : OSVersionSlug)
    (deployment : Deployment) (boshDirector : BoshDirector) :
    List ID → List Local → Run (List Local)
  | [], downloadedReleases => Run.pure downloadedReleases
  | rel :: rest, downloadedReleases =>
    Run.bind
      (downloadCompiledReleases.step rt f stemcellManifest osVersionSlug deployment
        boshDirector rel)
      fun downloaded =>
        downloadCompiledReleases.loop rt f stemcellManifest osVersionSlug deployment
          boshDirector rest (downloadedReleases ++ [downloaded])

/-- Method `downloadCompiledReleases`: the OS version slug is built first (a panic
when the operating system or the version of the stemcell is empty), then the loop
runs. -/
def downloadCompiledReleases {K : Type} (rt : Runtime) (f : CompileBuiltReleases K)
    (stemcellManifest : StemcellManifest) (releaseIDs : List ID) (deployment : Deployment)
    (boshDirector : BoshDirector) : Run (List Local) :=
  Run.bind
    (NewOSVersionSlug stemcellManifest.OperatingSystem stemcellManifest.Version)
    fun osVersionSlug =>
      downloadCompiledReleases.loop rt f stemcellManifest osVersionSlug deployment
        boshDirector releaseIDs []

/-- The function deferred by `compileAndDownloadReleases`: delete the deployment
(panic when that fails), then clean up the director (a failure is only logged). -/
def compileAndDownloadReleases.deferred (deployment : Deployment)
    (boshDirector : BoshDirector) : Run Unit :=
  match deployment.Delete true with
  | .error err => ⟨.panic (.wrap "error deleting the deployment" err), [.Delete]⟩
  | .ok _ =>
    match boshDirector.CleanUp true false false with
    | .error _ => ⟨.ok (), [.Delete, .CleanUp]⟩
    | .ok _ => ⟨.ok (), [.Delete, .CleanUp]⟩

/-- The call `uuid.Must(uuid.NewRandom())`: it panics when no identifier is produced. -/
def compileAndDownloadReleases.mustNewRandom (rt : Runtime) : Run String :=
  match rt.NewRandom with
  | .ok id => Run.pure id
  | .error err => ⟨.panic err, []⟩

/-- Method `compileAndDownloadReleases`. The `defer` statement stands after the
checks of `mg.Generate` and `deployment.Update`, so the deferred function covers
only the call of `downloadCompiledReleases`. -/
def compileAndDownloadReleases {K : Type} (rt : Runtime) (f : CompileBuiltReleases K)
    (releaseSource : MultiReleaseSource) (builtReleases : List Remote) :
    Run (List Local × StemcellManifest) :=
  Run.bind
    (Run.wrapErr "unable to connect to bosh director"
      (Run.call .BoshDirectorFactory f.BoshDirectorFactory))
    fun boshDirector =>
  Run.bind (uploadReleasesToDirector rt f builtReleases releaseSource boshDirector)
    fun releaseIDs =>
  Run.bind (uploadStemcellToDirector rt f boshDirector)
    fun stemcellManifest =>
  Run.bind (compileAndDownloadReleases.mustNewRandom rt)
    fun id =>
  let deploymentName := "compile-built-releases-" ++ id
  Run.bind
    (Run.wrapErr "couldn't create deployment"
      (Run.call (.FindDeployment deploymentName) (boshDirector.FindDeployment deploymentName)))
    fun deployment =>
  Run.bind
    (Run.wrapErr "couldn't generate bosh manifest"
      (Run.ofExcept (rt.Generate deploymentName releaseIDs stemcellManifest)))
    fun manifest =>
  Run.bind
    (Run.wrapErr "updating the bosh deployment"
      (Run.call (.Update manifest) (deployment.Update manifest)))
    fun _ =>
  Run.deferring
    (Run.bind
      (downloadCompiledReleases rt f stemcellManifest releaseIDs deployment boshDirector)
      fun downloadedReleases => Run.pure (downloadedReleases, stemcellManifest))
    (compileAndDownloadReleases.deferred deployment boshDirector)

/-! ## Publishing -/

/-- The body of the loop of `uploadCompiledReleases` for one downloaded release. -/
def uploadCompiledReleases.step (rt : Runtime) (releaseUploader : ReleaseUploader)
    (stemcell : StemcellManifest) (downloadedRelease : Local) : Run remoteReleaseWithSHA1 :=
  Run.bind
    (Run.wrapErr
      ("opening compiled release " ++ quote downloadedRelease.LocalPath ++ " for uploading")
      (Run.ofExcept (rt.Open downloadedRelease.LocalPath)))
    fun releaseFile =>
      let spec : Requirement :=
        { Name := downloadedRelease.ID.Name,
          Version := downloadedRelease.ID.Version,
          StemcellOS := stemcell.OperatingSystem,
          StemcellVersion := stemcell.Version }
      Run.bind
        (Run.wrapErr
          ("uploading compiled release " ++ quote downloadedRelease.LocalPath ++ " failed")
          (Run.call (.UploadRelease spec releaseFile)
            (releaseUploader.UploadRelease spec releaseFile)))
        fun remoteRelease =>
          Run.pure { Remote := remoteRelease, SHA1 := downloadedRelease.SHA1 }

/-- The loop of `uploadCompiledReleases`, with the `uploadedReleases` built so far. -/
def uploadCompiledReleases.loop (rt : Runtime) (releaseUploader : ReleaseUploader)
    (stemcell : StemcellManifest) :
    List Local → List remoteReleaseWithSHA1 → Run (List remoteReleaseWithSHA1)
  | [], uploadedReleases => Run.pure uploadedReleases
  | downloadedRelease :: rest, uploadedReleases =>
    Run.bind (uploadCompiledReleases.step rt releaseUploader stemcell downloadedRelease)
      fun uploaded =>
        uploadCompiledReleases.loop rt releaseUploader stemcell rest
          (uploadedReleases ++ [uploaded])

/-- Method `uploadCompiledReleases`. -/
def uploadCompiledReleases (rt : Runtime) (downloadedReleases : List Local)
    (releaseUploader : ReleaseUploader) (stemcell : StemcellManifest) :
    Run (List remoteReleaseWithSHA1) :=
  uploadCompiledReleases.loop rt releaseUploader stemcell downloadedReleases []

/-! ## `updateLockfile` -/

/-- The inner loop of `updateLockfile`: the index of the first entry whose `Name` is
`name` (the entry `matchingRelease` points at), `none` when the pointer stays nil. -/
def updateLockfile.matchingRelease (name : String) : List ReleaseLock → Option Nat
  | [] => none
  | lock :: rest =>
    if lock.Name = name then some 0
    else (updateLockfile.matchingRelease name rest).map (· + 1)

/-- The three assignments through `matchingRelease`. -/
def updateLockfile.assign (uploaded : remoteReleaseWithSHA1) (lock : ReleaseLock) :
    ReleaseLock :=
  { lock with
    RemoteSource := uploaded.Remote.SourceID,
    RemotePath := uploaded.Remote.RemotePath,
    SHA1 := uploaded.SHA1 }

/-- The entries after the assignments through a pointer to the entry at index `i`. -/
def updateLockfile.store (uploaded : remoteReleaseWithSHA1) :
    Nat → List ReleaseLock → List ReleaseLock
  | _, [] => []
  | 0, lock :: rest => updateLockfile.assign uploaded lock :: rest
  | i + 1, lock :: rest => lock :: updateLockfile.store uploaded i rest

/-- The `range uploadedReleases` loop of `updateLockfile` on the entries of the
lock: the entries it leaves, or the error it returns. -/
def updateLockfile.loop :
    List remoteReleaseWithSHA1 → List ReleaseLock → Except Error (List ReleaseLock)
  | [], releases => .ok releases
  | uploaded :: rest, releases =>
    match updateLockfile.matchingRelease uploaded.Remote.ID.Name releases with
    | none =>
      .error (.msg ("no release named " ++ quote uploaded.Remote.ID.Name ++
        " exists in your Kilnfile.lock"))
    | some i => updateLockfile.loop rest (updateLockfile.store uploaded i releases)

/-- Method `updateLockfile`: the loop, then `SaveKilnfileLock` on the lock with the
entries the loop left. -/
def updateLockfile {K : Type} (f : CompileBuiltReleases K)
    (uploadedReleases : List remoteReleaseWithSHA1) (kilnfileLock : KilnfileLock) :
    Run Unit :=
  match updateLockfile.loop uploadedReleases kilnfileLock.Releases with
  | .error err => Run.fail err
  | .ok releases =>
    Run.call
      (.SaveKilnfileLock f.Options.Kilnfile { kilnfileLock with Releases := releases })
      (f.KilnfileLoader.SaveKilnfileLock f.Options.Kilnfile
        { kilnfileLock with Releases := releases })

/-! ## `Execute` -/

/-- The block `if len(remainingBuiltReleases) > 0 { ... } else { ... }` of `Execute`:
it gives the value of `updatedReleases` after the block. -/
def Execute.compileRemaining {K : Type} (rt : Runtime) (f : CompileBuiltReleases K)
    (allReleaseSources : MultiReleaseSource) (releaseUploader : ReleaseUploader)
    (updatedReleases : List remoteReleaseWithSHA1) (remainingBuiltReleases : List Remote) :
    Run (List remoteReleaseWithSHA1) :=
  if remainingBuiltReleases.length > 0 then
    Run.bind (compileAndDownloadReleases rt f allReleaseSources remainingBuiltReleases)
      fun compiled =>
        Run.bind (uploadCompiledReleases rt compiled.1 releaseUploader compiled.2)
          fun uploadedReleases => Run.pure (updatedReleases ++ uploadedReleases)
  else Run.pure updatedReleases

/-- The part of `Execute` after `findBuiltReleases` returned a non-empty list. -/
def Execute.resolve {K : Type} (rt : Runtime) (f : CompileBuiltReleases K)
    (publishableReleaseSources allReleaseSources : MultiReleaseSource)
    (releaseUploader : ReleaseUploader) (kilnfileLock : KilnfileLock)
    (builtReleases : List Remote) : Run Unit :=
  Run.bind
    (downloadPreCompiledReleases f publishableReleaseSources builtReleases
      kilnfileLock.Stemcell)
    fun found =>
      Run.bind
        (Execute.compileRemaining rt f allReleaseSources releaseUploader found.1 found.2)
        fun updatedReleases => updateLockfile f updatedReleases kilnfileLock

/-- The part of `Execute` after the release sources and the uploader were set up. -/
def Execute.classify {K : Type} (rt : Runtime) (f : CompileBuiltReleases K)
    (publishableReleaseSources allReleaseSources : MultiReleaseSource)
    (releaseUploader : ReleaseUploader) (kilnfileLock : KilnfileLock) : Run Unit :=
  match findBuiltReleases allReleaseSources kilnfileLock with
  | (_, some err) => Run.fail err
  | (builtReleases, none) =>
    if builtReleases.length = 0 then Run.pure ()
    else
      Execute.resolve rt f publishableReleaseSources allReleaseSources releaseUploader
        kilnfileLock builtReleases

/-- Method `Execute`. `jhanda.Parse` fills the options of the receiver (a copy). -/
def Execute {K : Type} (rt : Runtime) (f : CompileBuiltReleases K) (args : List String) :
    Run Unit :=
  Run.bind (Run.ofExcept (rt.Parse f.Options args))
    fun options =>
      let f : CompileBuiltReleases K := { f with Options := options }
      Run.bind
        (Run.wrapErr "couldn't load Kilnfiles"
          (Run.call (.LoadKilnfiles f.Options.Kilnfile)
            (f.KilnfileLoader.LoadKilnfiles f.Options.Kilnfile f.Options.VariablesFiles
              f.Options.Variables)))
        fun loaded =>
          let publishableReleaseSources := f.MultiReleaseSourceProvider loaded.1 true
          let allReleaseSources := f.MultiReleaseSourceProvider loaded.1 false
          Run.bind
            (Run.wrapErr "error loading release uploader"
              (Run.ofExcept (f.ReleaseUploaderFinder loaded.1 f.Options.UploadTargetID)))
            fun releaseUploader =>
              Execute.classify rt f publishableReleaseSources allReleaseSources
                releaseUploader loaded.2

/-- The operation of a collaborator that an event is a call of. -/
inductive Call where
  | LoadKilnfiles
  | GetMatchedRelease
  | DownloadRelease
  | BoshDirectorFactory
  | UploadReleaseFile
  | UploadStemcellFile
  | FindDeployment
  | Update
  | Delete
  | CleanUp
  | ExportRelease
  | DownloadResourceUnchecked
  | VerifyFilePath
  | UploadRelease
  | SaveKilnfileLock
  deriving DecidableEq, Repr

/-- The operation called by an event. -/
def Event.call : Event → Call
  | .LoadKilnfiles _ => .LoadKilnfiles
  | .GetMatchedRelease _ => .GetMatchedRelease
  | .DownloadRelease _ _ => .DownloadRelease
  | .BoshDirectorFactory => .BoshDirectorFactory
  | .UploadReleaseFile _ => .UploadReleaseFile
  | .UploadStemcellFile _ => .UploadStemcellFile
  | .FindDeployment _ => .FindDeployment
  | .Update _ => .Update
  | .Delete => .Delete
  | .CleanUp => .CleanUp
  | .ExportRelease _ => .ExportRelease
  | .DownloadResourceUnchecked _ _ => .DownloadResourceUnchecked
  | .VerifyFilePath _ _ _ => .VerifyFilePath
  | .UploadRelease _ _ => .UploadRelease
  | .SaveKilnfileLock _ _ => .SaveKilnfileLock

/-- How many times an operation was invoked in a trace. -/
def invocations (c : Call) (trace : List Event) : Nat :=
  trace.countP (fun ev => ev.call = c)

/-- A run that invokes no operation outside `cs`. -/
def Run.only {α : Type} (cs : List Call) (r : Run α) : Prop :=
  ∀ ev ∈ r.trace, ev.call ∈ cs

/-- Whether the source of a lock entry is found and reports `Publishable() = true`. -/
def sourcePublishable (s : MultiReleaseSource) (lock : ReleaseLock) : Bool :=
  match s.FindByID lock.RemoteSource with
  | .ok src => src.Publishable
  | .error _ => false

/-- Whether `GetMatchedRelease` reports `found = true` for a build candidate. -/
def reportedFound (publishableReleaseSources : MultiReleaseSource) (stemcell : Stemcell)
    (builtRelease : Remote) : Bool :=
  match publishableReleaseSources.GetMatchedRelease
      (downloadPreCompiledReleases.spec stemcell builtRelease) with
  | .ok (_, found) => found
  | .error _ => false

/-- Whether `GetMatchedRelease` reports `found = false` for a build candidate. -/
def reportedNotFound (publishableReleaseSources : MultiReleaseSource) (stemcell : Stemcell)
    (builtRelease : Remote) : Bool :=
  match publishableReleaseSources.GetMatchedRelease
      (downloadPreCompiledReleases.spec stemcell builtRelease) with
  | .ok (_, found) => !found
  | .error _ => false

/-- A pre-compiled release `resolved` answers the candidate `builtRelease`:
`GetMatchedRelease` reported a remote with `found = true`, `DownloadRelease` returned
a local release for that remote, and `resolved` holds that remote with the `SHA1` of
that local release. -/
def resolvedFromCache {K : Type} (f : CompileBuiltReleases K)
    (publishableReleaseSources : MultiReleaseSource) (stemcell : Stemcell)
    (builtRelease : Remote) (resolved : remoteReleaseWithSHA1) : Prop :=
  ∃ (remote : Remote) (localRelease : Local),
    publishableReleaseSources.GetMatchedRelease
        (downloadPreCompiledReleases.spec stemcell builtRelease) = .ok (remote, true) ∧
    publishableReleaseSources.DownloadRelease f.Options.ReleasesDir remote
        DefaultDownloadThreadCount = .ok localRelease ∧
    resolved = { Remote := remote, SHA1 := localRelease.SHA1 }

/-! ## Concrete collaborators, used to evaluate the definitions -/

/-- A registry of two sources: `compiled` is publishable, `built` is not. -/
def demoSources : MultiReleaseSource where
  FindByID := fun id =>
    if id = "compiled" then .ok { ID := "compiled", Publishable := true }
    else if id = "built" then .ok { ID := "built", Publishable := false }
    else .error (.msg "unknown source")
  GetMatchedRelease := fun spec =>
    if spec.Name = "b" then
      .ok ({ ID := { Name := "b", Version := "2" }, SourceID := "compiled",
             RemotePath := "b-2-os-1.tgz" }, true)
    else .ok ({ ID := { Name := "", Version := "" }, SourceID := "", RemotePath := "" }, false)
  DownloadRelease := fun dir remote _ =>
    .ok { ID := remote.ID, LocalPath := dir ++ "/" ++ remote.RemotePath, SHA1 := "bbb" }

/-- Release `a` from the publishable source. -/
def demoLockA : ReleaseLock :=
  { Name := "a", Version := "1", RemoteSource := "compiled", RemotePath := "a-1.tgz",
    SHA1 := "aaa" }

/-- Release `b` from the source that is not publishable. -/
def demoLockB : ReleaseLock :=
  { Name := "b", Version := "2", RemoteSource := "built", RemotePath := "b-2.tgz",
    SHA1 := "b00" }

/-- Release `c` from a source the registry does not know. -/
def demoLockC : ReleaseLock :=
  { Name := "c", Version := "3", RemoteSource := "gone", RemotePath := "c-3.tgz",
    SHA1 := "ccc" }

/-- A lock with the releases `a` and `b`. -/
def demoLock : KilnfileLock :=
  { Releases := [demoLockA, demoLockB], Stemcell := { OS := "os", Version := "1" } }

/-- Options of the demonstration command. -/
def demoOptions : Options :=
  { ReleasesDir := "releases", StemcellFile := "stemcell.tgz", UploadTargetID := "compiled",
    Kilnfile := "Kilnfile", VariablesFiles := [], Variables := [] }

/-- A loader that loads the given lock and saves with the given result. -/
def demoLoader (kilnfileLock : KilnfileLock) (save : Except Error Unit) :
    KilnfileLoader Unit where
  LoadKilnfiles := fun _ _ _ => .ok ((), kilnfileLock)
  SaveKilnfileLock := fun _ _ => save

/-- An uploader that stores every release in the source `compiled`. -/
def demoUploader : ReleaseUploader where
  UploadRelease := fun spec file =>
    .ok { ID := { Name := spec.Name, Version := spec.Version }, SourceID := "compiled",
          RemotePath := file.path }

/-- A deployment whose `Update` and `Delete` answer as given and whose export
declares the digest `ccc`. -/
def demoDeployment (update delete : Except Error Unit) : Deployment where
  Update := fun _ => update
  Delete := fun _ => delete
  ExportRelease := fun _ _ => .ok { BlobstoreID := "blob", SHA1 := "ccc" }

/-- A director that hands out `demoDeployment update delete`. -/
def demoDirector (update delete : Except Error Unit) : BoshDirector where
  UploadStemcellFile := fun _ _ => .ok ()
  UploadReleaseFile := fun _ _ _ => .ok ()
  FindDeployment := fun _ => .ok (demoDeployment update delete)
  DownloadResourceUnchecked := fun _ _ => .ok ()
  CleanUp := fun _ _ _ => .ok ()

/-- Package-level facilities that all succeed, except that manifest generation and
the verification of a file against the declared digest answer as given. -/
def demoRuntime (generate : Except Error String) (verify : Except Error Unit) : Runtime where
  Parse := fun options _ => .ok options
  Open := fun path => .ok { path := path }
  OpenFile := fun path => .ok { path := path }
  Close := fun _ => .ok ()
  Join := fun dir file => dir ++ "/" ++ file
  sha1Hex := fun _ => .ok "ccc"
  NewRandom := .ok "0000"
  Generate := fun _ _ _ => generate
  Read := fun _ => .ok (some { OperatingSystem := "os", Version := "1" })
  ParseMultipleDigest := fun s => .ok s
  VerifyFilePath := fun _ _ => verify

/-- A release source that knows the sources `compiled` and `built` and offers no
pre-compiled release. -/
def demoSourcesNoMatch : MultiReleaseSource where
  FindByID := demoSources.FindByID
  GetMatchedRelease := fun _ =>
    .ok ({ ID := { Name := "", Version := "" }, SourceID := "", RemotePath := "" }, false)
  DownloadRelease := demoSources.DownloadRelease

/-- The demonstration command over a lock, a release source, an uploader finder
answer, and the answers of `Update`, `Delete` and `SaveKilnfileLock`. -/
def demoCommand (kilnfileLock : KilnfileLock) (sources : MultiReleaseSource)
    (uploader : Except Error ReleaseUploader) (update delete save : Except Error Unit) :
    CompileBuiltReleases Unit where
  KilnfileLoader := demoLoader kilnfileLock save
  MultiReleaseSourceProvider := fun _ _ => sources
  ReleaseUploaderFinder := fun _ _ => uploader
  BoshDirectorFactory := .ok (demoDirector update delete)
  Options := demoOptions

/-- The command in which every collaborator succeeds and a cache offers release `b`. -/
def demoCommandOk : CompileBuiltReleases Unit :=
  demoCommand demoLock demoSources (.ok demoUploader) (.ok ()) (.ok ()) (.ok ())

/-- A resolved release `b` at the version of the lock. -/
def demoResolvedB : remoteReleaseWithSHA1 :=
  { Remote := { ID := { Name := "b", Version := "2" }, SourceID := "compiled",
                RemotePath := "b-2-os-1.tgz" },
    SHA1 := "bbb" }

/-- A resolved release named `b` at a version that is not the one of the lock. -/
def demoResolvedOtherVersion : remoteReleaseWithSHA1 :=
  { Remote := { ID := { Name := "b", Version := "9" }, SourceID := "compiled",
                RemotePath := "b-9-os-1.tgz" },
    SHA1 := "999" }

/-- The command on the lock `[a, b]` when no cache offers `b`, so that `b` has to be
compiled; `Delete` answers as given. -/
def demoCommandBuild (delete : Except Error Unit) : CompileBuiltReleases Unit :=
  demoCommand demoLock demoSourcesNoMatch (.ok demoUploader) (.ok ()) delete (.ok ())

/-- A lock whose only release comes from the publishable source. -/
def demoLockPublishable : KilnfileLock :=
  { Releases := [demoLockA], Stemcell := { OS := "os", Version := "1" } }

/-- The command on the lock `[a]`, with the given answer of `ReleaseUploaderFinder`. -/
def demoCommandPublishable (uploader : Except Error ReleaseUploader) :
    CompileBuiltReleases Unit :=
  demoCommand demoLockPublishable demoSources uploader (.ok ()) (.ok ()) (.ok ())

/-- Facilities that all succeed. -/
def demoRuntimeOk : Runtime := demoRuntime (.ok "manifest") (.ok ())

/-- Whether the loop of `downloadPreCompiledReleases` gets past a candidate:
`GetMatchedRelease` returns no error for it and, when it reports a match,
`DownloadRelease` returns the matched release. -/
def passesCacheResolution {K : Type} (f : CompileBuiltReleases K)
    (publishableReleaseSources : MultiReleaseSource) (stemcell : Stemcell)
    (builtRelease : Remote) : Bool :=
  match publishableReleaseSources.GetMatchedRelease
      (downloadPreCompiledReleases.spec stemcell builtRelease) with
  | .error _ => false
  | .ok (remote, found) =>
    !found ||
      (match publishableReleaseSources.DownloadRelease f.Options.ReleasesDir remote
          DefaultDownloadThreadCount with
        | .ok _ => true
        | .error _ => false)

/-- A release source whose cache offers release `b` and fails to deliver it. -/
def demoSourcesBrokenCache : MultiReleaseSource where
  FindByID := demoSources.FindByID
  GetMatchedRelease := demoSources.GetMatchedRelease
  DownloadRelease := fun _ _ _ => .error (.msg "download failed")

/-- The command on the lock `[a, b]` over `demoSourcesBrokenCache`. -/
def demoCommandBrokenCache : CompileBuiltReleases Unit :=
  demoCommand demoLock demoSourcesBrokenCache (.ok demoUploader) (.ok ()) (.ok ()) (.ok ())

/-- The command on the lock `[a, b]` when `b` has to be compiled and no BOSH director
can be reached. -/
def demoCommandNoDirector : CompileBuiltReleases Unit where
  KilnfileLoader := demoLoader demoLock (.ok ())
  MultiReleaseSourceProvider := fun _ _ => demoSourcesNoMatch
  ReleaseUploaderFinder := fun _ _ => .ok demoUploader
  BoshDirectorFactory := .error (.msg "no director")
  Options := demoOptions

/-- A lock in which release `b` has an empty version. -/
def demoLockEmptyVersion : KilnfileLock :=
  { Releases := [demoLockA, { demoLockB with Version := "" }],
    Stemcell := { OS := "os", Version := "1" } }

/-! # Theorems -/

/-! ## Lemmas on runs -/

@[simp] theorem Run.trace_pure {α : Type} (a : α) : (Run.pure a).trace = [] := rfl

@[simp] theorem Run.outcome_pure {α : Type} (a : α) : (Run.pure a).outcome = .ok a := rfl

@[simp] theorem Run.trace_fail {α : Type} (e : Error) : (Run.fail e : Run α).trace = [] := rfl

@[simp] theorem Run.outcome_fail {α : Type} (e : Error) :
    (Run.fail e : Run α).outcome = .error e := rfl

@[simp] theorem Run.trace_ofExcept {α : Type} (res : Except Error α) :
    (Run.ofExcept res).trace = [] := by
  cases res <;> rfl

@[simp] theorem Run.trace_call {α : Type} (ev : Event) (res : Except Error α) :
    (Run.call ev res).trace = [ev] := by
  cases res <;> rfl

theorem Run.outcome_call {α : Type} (ev : Event) (res : Except Error α) :
    (Run.call ev res).outcome = (Run.ofExcept res).outcome := by
  cases res <;> rfl

@[simp] theorem Run.trace_wrapErr {α : Type} (context : String) (r : Run α) :
    (Run.wrapErr context r).trace = r.trace := by
  unfold Run.wrapErr
  cases r.outcome <;> rfl

@[simp] theorem Run.trace_deferring {α : Type} (body : Run α) (deferred : Run Unit) :
    (Run.deferring body deferred).trace = body.trace ++ deferred.trace := rfl

/-- The events of a sequence: those of the first part, then, when the first part
returned a value, those of the continuation. -/
theorem Run.trace_bind {α β : Type} (r : Run α) (k : α → Run β) :
    (Run.bind r k).trace =
      r.trace ++ (match r.outcome with
        | .ok a => (k a).trace
        | _ => []) := by
  unfold Run.bind
  cases r.outcome <;> simp

theorem Run.bind_ok {α β : Type} (r : Run α) (k : α → Run β) (a : α)
    (h : r.outcome = .ok a) :
    Run.bind r k = ⟨(k a).outcome, r.trace ++ (k a).trace⟩ := by
  unfold Run.bind
  rw [h]

theorem Run.bind_error {α β : Type} (r : Run α) (k : α → Run β) (e : Error)
    (h : r.outcome = .error e) :
    Run.bind r k = ⟨.error e, r.trace⟩ := by
  unfold Run.bind
  rw [h]

theorem findBuiltReleases.loop_known (s : MultiReleaseSource) (locks : List ReleaseLock)
    (acc : List Remote) (h : ∀ l ∈ locks, sourceKnown s l = true) :
    findBuiltReleases.loop s locks acc =
      (acc ++ (locks.filter (sourceNotPublishable s)).map findBuiltReleases.remoteOf, none) := by
  induction locks generalizing acc with
  | nil => simp [findBuiltReleases.loop]
  | cons l rest ih =>
    have hl : sourceKnown s l = true := h l (List.mem_cons_self _ _)
    have hrest : ∀ x ∈ rest, sourceKnown s x = true :=
      fun x hx => h x (List.mem_cons_of_mem _ hx)
    unfold sourceKnown at hl
    cases hf : s.FindByID l.RemoteSource with
    | error e => rw [hf] at hl; simp at hl
    | ok src =>
      cases hp : src.Publishable <;>
        simp [findBuiltReleases.loop, hf, hp, ih _ hrest, List.filter_cons, sourceNotPublishable]

theorem findBuiltReleases.loop_unknown (s : MultiReleaseSource) (pre post : List ReleaseLock)
    (l : ReleaseLock) (e : Error) (acc : List Remote)
    (hpre : ∀ x ∈ pre, sourceKnown s x = true)
    (hl : s.FindByID l.RemoteSource = .error e) :
    findBuiltReleases.loop s (pre ++ l :: post) acc = ([], some e) := by
  induction pre generalizing acc with
  | nil => simp [findBuiltReleases.loop, hl]
  | cons p rest ih =>
    have hp : sourceKnown s p = true := hpre p (List.mem_cons_self _ _)
    have hrest : ∀ x ∈ rest, sourceKnown s x = true :=
      fun x hx => hpre x (List.mem_cons_of_mem _ hx)
    unfold sourceKnown at hp
    cases hf : s.FindByID p.RemoteSource with
    | error e => rw [hf] at hp; simp at hp
    | ok src =>
      cases hpub : src.Publishable <;>
        simp [findBuiltReleases.loop, hf, hpub, ih _ hrest]

/-- A list with an entry of unknown source splits at the first such entry. -/
theorem exists_first_unknown (s : MultiReleaseSource) (locks : List ReleaseLock)
    (h : ∃ l ∈ locks, sourceKnown s l = false) :
    ∃ pre l post, locks = pre ++ l :: post ∧ (∀ x ∈ pre, sourceKnown s x = true) ∧
      sourceKnown s l = false := by
  induction locks with
  | nil => simp at h
  | cons a rest ih =>
    cases ha : sourceKnown s a with
    | false => exact ⟨[], a, rest, by simp, by simp, ha⟩
    | true =>
      have : ∃ l ∈ rest, sourceKnown s l = false := by
        obtain ⟨l, hl, hk⟩ := h
        rcases List.mem_cons.mp hl with rfl | hl
        · rw [ha] at hk; cases hk
        · exact ⟨l, hl, hk⟩
      obtain ⟨pre, l, post, he, hp, hk⟩ := ih this
      refine ⟨a :: pre, l, post, by simp [he], ?_, hk⟩
      intro x hx
      rcases List.mem_cons.mp hx with rfl | hx
      · exact ha
      · exact hp x hx

/-! ## Classification: `findBuiltReleases` -/

/-- What `findBuiltReleases` returns when every source is found. -/
theorem findBuiltReleases_classifies_aux (s : MultiReleaseSource) (kilnfileLock : KilnfileLock)
    (h : ∀ l ∈ kilnfileLock.Releases, sourceKnown s l = true) :
    findBuiltReleases s kilnfileLock =
      ((kilnfileLock.Releases.filter (sourceNotPublishable s)).map
        findBuiltReleases.remoteOf, none) := by
  unfold findBuiltReleases
  rw [findBuiltReleases.loop_known s _ _ h]
  rfl

/-- C1: when `FindByID` finds the source of every entry of the lock,
`findBuiltReleases` returns a nil error and exactly the entries whose source reports
`Publishable() = false`, in the order of the lock, each as the `Remote` with the
entry's `Name`, `Version`, `RemoteSource` (as `SourceID`) and `RemotePath`; an entry
whose source is publishable is not in the result. -/
theorem findBuiltReleases_classifies (s : MultiReleaseSource) (kilnfileLock : KilnfileLock)
    (h : ∀ l ∈ kilnfileLock.Releases, sourceKnown s l = true) :
    findBuiltReleases s kilnfileLock =
      ((kilnfileLock.Releases.filter (sourceNotPublishable s)).map
        (fun l => ({ ID := { Name := l.Name, Version := l.Version },
                     SourceID := l.RemoteSource,
                     RemotePath := l.RemotePath } : Remote)), none) :=
  findBuiltReleases_classifies_aux s kilnfileLock h

/-- C1 at the lock `[a, b]`: only `b`, whose source is not publishable, is returned. -/
theorem findBuiltReleases_classifies_witness :
    (∀ l ∈ demoLock.Releases, sourceKnown demoSources l = true) ∧
    findBuiltReleases demoSources demoLock =
      ((demoLock.Releases.filter (sourceNotPublishable demoSources)).map
        (fun l => ({ ID := { Name := l.Name, Version := l.Version },
                     SourceID := l.RemoteSource,
                     RemotePath := l.RemotePath } : Remote)), none) ∧
    (demoLock.Releases.filter (sourceNotPublishable demoSources)) = [demoLockB] :=
  ⟨by decide, findBuiltReleases_classifies demoSources demoLock (by decide), by decide⟩

/-- C9: `findBuiltReleases` returns a non-nil error exactly when `FindByID` fails
for the source of some entry; the error is then the one `FindByID` returned for the
first such entry of the lock, and the list returned is nil. -/
theorem findBuiltReleases_error_iff (s : MultiReleaseSource) (kilnfileLock : KilnfileLock) :
    ((∃ e, (findBuiltReleases s kilnfileLock).2 = some e) ↔
      ∃ l ∈ kilnfileLock.Releases, sourceKnown s l = false) ∧
    (∀ (pre post : List ReleaseLock) (l : ReleaseLock) (e : Error),
      kilnfileLock.Releases = pre ++ l :: post →
      (∀ x ∈ pre, sourceKnown s x = true) →
      s.FindByID l.RemoteSource = .error e →
      findBuiltReleases s kilnfileLock = ([], some e)) := by
  have key : ∀ (pre post : List ReleaseLock) (l : ReleaseLock) (e : Error),
      kilnfileLock.Releases = pre ++ l :: post →
      (∀ x ∈ pre, sourceKnown s x = true) →
      s.FindByID l.RemoteSource = .error e →
      findBuiltReleases s kilnfileLock = ([], some e) := by
    intro pre post l e hsplit hpre hl
    unfold findBuiltReleases
    rw [hsplit]
    exact findBuiltReleases.loop_unknown s pre post l e [] hpre hl
  refine ⟨⟨?_, ?_⟩, key⟩
  · rintro ⟨e, he⟩
    by_contra hno
    have hall : ∀ l ∈ kilnfileLock.Releases, sourceKnown s l = true := by
      intro l hl
      cases hk : sourceKnown s l with
      | true => rfl
      | false => exact absurd ⟨l, hl, hk⟩ hno
    have := findBuiltReleases.loop_known s kilnfileLock.Releases [] hall
    unfold findBuiltReleases at he
    rw [this] at he
    cases he
  · intro h
    obtain ⟨pre, l, post, hsplit, hpre, hk⟩ := exists_first_unknown s _ h
    unfold sourceKnown at hk
    cases hf : s.FindByID l.RemoteSource with
    | ok src => rw [hf] at hk; simp at hk
    | error e => exact ⟨e, by rw [key pre post l e hsplit hpre hf]⟩

/-- C9 at the lock `[a, c, b]`: the source of `c` is unknown, the error of `FindByID`
is returned with a nil list. -/
theorem findBuiltReleases_error_iff_witness :
    findBuiltReleases demoSources
        { Releases := [demoLockA, demoLockC, demoLockB], Stemcell := demoLock.Stemcell } =
      ([], some (.msg "unknown source")) :=
  (findBuiltReleases_error_iff demoSources
      { Releases := [demoLockA, demoLockC, demoLockB], Stemcell := demoLock.Stemcell }).2
    [demoLockA] [demoLockB] demoLockC (.msg "unknown source") rfl (by decide) (by rfl)

/-! ## Reconciliation: `updateLockfile` -/

/-- The name of a resolved release (`uploaded.Name` in the source). -/
theorem updateLockfile.assign_Name (up : remoteReleaseWithSHA1) (r : ReleaseLock) :
    (updateLockfile.assign up r).Name = r.Name := rfl

theorem updateLockfile.assign_Version (up : remoteReleaseWithSHA1) (r : ReleaseLock) :
    (updateLockfile.assign up r).Version = r.Version := rfl

theorem updateLockfile.getElem?_store (up : remoteReleaseWithSHA1) (i j : Nat)
    (rels : List ReleaseLock) :
    (updateLockfile.store up i rels)[j]? =
      if j = i then (rels[j]?).map (updateLockfile.assign up) else rels[j]? := by
  induction rels generalizing i j with
  | nil => cases i <;> simp [updateLockfile.store]
  | cons r rest ih =>
    cases i with
    | zero => cases j <;> simp [updateLockfile.store]
    | succ i =>
      cases j with
      | zero => simp [updateLockfile.store]
      | succ j => simp [updateLockfile.store, ih]

theorem updateLockfile.map_Name_store (up : remoteReleaseWithSHA1) (i : Nat)
    (rels : List ReleaseLock) :
    (updateLockfile.store up i rels).map (·.Name) = rels.map (·.Name) := by
  induction rels generalizing i with
  | nil => cases i <;> simp [updateLockfile.store]
  | cons r rest ih =>
    cases i with
    | zero => simp [updateLockfile.store, updateLockfile.assign]
    | succ i => simp [updateLockfile.store, ih]

theorem updateLockfile.map_Version_store (up : remoteReleaseWithSHA1) (i : Nat)
    (rels : List ReleaseLock) :
    (updateLockfile.store up i rels).map (·.Version) = rels.map (·.Version) := by
  induction rels generalizing i with
  | nil => cases i <;> simp [updateLockfile.store]
  | cons r rest ih =>
    cases i with
    | zero => simp [updateLockfile.store, updateLockfile.assign]
    | succ i => simp [updateLockfile.store, ih]

/-- The pointer `matchingRelease` points at an entry with the name searched for. -/
theorem updateLockfile.matchingRelease_some (name : String) (rels : List ReleaseLock)
    (i : Nat) (h : updateLockfile.matchingRelease name rels = some i) :
    ∃ r, rels[i]? = some r ∧ r.Name = name := by
  induction rels generalizing i with
  | nil => simp [updateLockfile.matchingRelease] at h
  | cons r rest ih =>
    unfold updateLockfile.matchingRelease at h
    by_cases hn : r.Name = name
    · simp [hn] at h
      subst h
      exact ⟨r, by simp, hn⟩
    · simp [hn] at h
      obtain ⟨k, hk, rfl⟩ := h
      obtain ⟨r', hr', hname⟩ := ih k hk
      exact ⟨r', by simpa using hr', hname⟩

/-- The pointer `matchingRelease` is not nil when the name occurs in the lock. -/
theorem updateLockfile.matchingRelease_of_mem (name : String) (rels : List ReleaseLock)
    (h : name ∈ rels.map (·.Name)) :
    ∃ i, updateLockfile.matchingRelease name rels = some i := by
  induction rels with
  | nil => simp at h
  | cons r rest ih =>
    unfold updateLockfile.matchingRelease
    by_cases hn : r.Name = name
    · exact ⟨0, by simp [hn]⟩
    · have : name ∈ rest.map (·.Name) := by
        simp only [List.map_cons, List.mem_cons] at h
        rcases h with h | h
        · exact absurd h.symm hn
        · exact h
      obtain ⟨i, hi⟩ := ih this
      exact ⟨i + 1, by simp [hn, hi]⟩

/-- In a lock with unique names a name determines the position of its entry. -/
theorem index_unique_of_nodup_names (rels : List ReleaseLock)
    (hnd : (rels.map (·.Name)).Nodup) (i j : Nat) (a b : ReleaseLock)
    (ha : rels[i]? = some a) (hb : rels[j]? = some b) (hab : a.Name = b.Name) : i = j := by
  induction rels generalizing i j with
  | nil => simp at ha
  | cons r rest ih =>
    simp only [List.map_cons, List.nodup_cons] at hnd
    cases i with
    | zero =>
      cases j with
      | zero => rfl
      | succ j =>
        simp at ha hb
        subst ha
        exact absurd (List.mem_map.mpr ⟨b, List.getElem?_mem hb, hab.symm⟩) hnd.1
    | succ i =>
      cases j with
      | zero =>
        simp at ha hb
        subst hb
        exact absurd (List.mem_map.mpr ⟨a, List.getElem?_mem ha, hab⟩) hnd.1
      | succ j =>
        simp at ha hb
        rw [ih hnd.2 i j ha hb]

/-- The loop of `updateLockfile` when every resolved name occurs in the lock: it
ends without error, keeps names and versions position by position, and leaves alone
every entry whose name is no resolved name. -/
theorem updateLockfile.loop_frame (ups : List remoteReleaseWithSHA1)
    (rels : List ReleaseLock)
    (h : ∀ up ∈ ups, up.Remote.ID.Name ∈ rels.map (·.Name)) :
    ∃ out, updateLockfile.loop ups rels = .ok out ∧
      out.map (·.Name) = rels.map (·.Name) ∧
      out.map (·.Version) = rels.map (·.Version) ∧
      ∀ (i : Nat) (old : ReleaseLock), rels[i]? = some old →
        (∀ up ∈ ups, up.Remote.ID.Name ≠ old.Name) → out[i]? = some old := by
  induction ups generalizing rels with
  | nil => exact ⟨rels, rfl, rfl, rfl, fun i old hi _ => hi⟩
  | cons u rest ih =>
    obtain ⟨i0, hi0⟩ :=
      updateLockfile.matchingRelease_of_mem _ rels (h u (List.mem_cons_self _ _))
    obtain ⟨r0, hr0, hname0⟩ := updateLockfile.matchingRelease_some _ rels i0 hi0
    have hmid : ∀ up ∈ rest,
        up.Remote.ID.Name ∈ (updateLockfile.store u i0 rels).map (·.Name) := by
      intro up hup
      rw [updateLockfile.map_Name_store]
      exact h up (List.mem_cons_of_mem _ hup)
    obtain ⟨out, hout, hN, hV, hframe⟩ := ih (updateLockfile.store u i0 rels) hmid
    refine ⟨out, ?_, ?_, ?_, ?_⟩
    · simp [updateLockfile.loop, hi0, hout]
    · rw [hN, updateLockfile.map_Name_store]
    · rw [hV, updateLockfile.map_Version_store]
    · intro i old hi hno
      apply hframe i old
      · rw [updateLockfile.getElem?_store]
        by_cases hii : i = i0
        · subst hii
          rw [hr0] at hi
          cases hi
          exact absurd hname0 (hno u (List.mem_cons_self _ _)).symm
        · simp [hii, hi]
      · intro up hup
        exact hno up (List.mem_cons_of_mem _ hup)

/-- The loop of `updateLockfile` on a lock with unique names and resolved releases
with distinct names: the entry of each resolved name is overwritten with the
locator and digest of that release. -/
theorem updateLockfile.loop_overwrites (ups : List remoteReleaseWithSHA1)
    (rels out : List ReleaseLock)
    (h : ∀ up ∈ ups, up.Remote.ID.Name ∈ rels.map (·.Name))
    (hnd : (rels.map (·.Name)).Nodup)
    (hups : (ups.map (·.Remote.ID.Name)).Nodup)
    (hout : updateLockfile.loop ups rels = .ok out) :
    ∀ up ∈ ups, ∀ (i : Nat) (old : ReleaseLock), rels[i]? = some old →
      old.Name = up.Remote.ID.Name → out[i]? = some (updateLockfile.assign up old) := by
  induction ups generalizing rels with
  | nil => intro up hup; simp at hup
  | cons u rest ih =>
    simp only [List.map_cons, List.nodup_cons] at hups
    obtain ⟨i0, hi0⟩ :=
      updateLockfile.matchingRelease_of_mem _ rels (h u (List.mem_cons_self _ _))
    obtain ⟨r0, hr0, hname0⟩ := updateLockfile.matchingRelease_some _ rels i0 hi0
    simp only [updateLockfile.loop, hi0] at hout
    have hmid : ∀ up ∈ rest,
        up.Remote.ID.Name ∈ (updateLockfile.store u i0 rels).map (·.Name) := by
      intro up hup
      rw [updateLockfile.map_Name_store]
      exact h up (List.mem_cons_of_mem _ hup)
    have hndmid : ((updateLockfile.store u i0 rels).map (·.Name)).Nodup := by
      rw [updateLockfile.map_Name_store]; exact hnd
    intro up hup i old hi hname
    rcases List.mem_cons.mp hup with rfl | hup
    · have hii : i = i0 :=
        index_unique_of_nodup_names rels hnd i i0 old r0 hi hr0 (hname.trans hname0.symm)
      subst hii
      obtain ⟨out2, hout2, _, _, hframe⟩ :=
        updateLockfile.loop_frame rest (updateLockfile.store up i rels) hmid
      rw [hout2] at hout
      cases hout
      apply hframe i
      · rw [updateLockfile.getElem?_store]; simp [hi]
      · intro x hx hxn
        rw [updateLockfile.assign_Name, hname] at hxn
        exact hups.1 (List.mem_map.mpr ⟨x, hx, hxn⟩)
    · have hne : up.Remote.ID.Name ≠ u.Remote.ID.Name := by
        intro heq
        exact hups.1 (List.mem_map.mpr ⟨up, hup, heq⟩)
      have hii : i ≠ i0 := by
        intro hii
        subst hii
        rw [hr0] at hi
        cases hi
        exact hne (hname.symm.trans hname0)
      apply ih (updateLockfile.store u i0 rels) hmid hndmid hups.2 hout up hup i old
      · rw [updateLockfile.getElem?_store]; simp [hii, hi]
      · exact hname

/-- What `updateLockfile` does once its loop has ended without error. -/
theorem updateLockfile_of_loop {K : Type} (f : CompileBuiltReleases K)
    (ups : List remoteReleaseWithSHA1) (kilnfileLock : KilnfileLock) (out : List ReleaseLock)
    (h : updateLockfile.loop ups kilnfileLock.Releases = .ok out) :
    (updateLockfile f ups kilnfileLock).trace =
        [.SaveKilnfileLock f.Options.Kilnfile { kilnfileLock with Releases := out }] ∧
    (updateLockfile f ups kilnfileLock).outcome =
      (Run.ofExcept (f.KilnfileLoader.SaveKilnfileLock f.Options.Kilnfile
        { kilnfileLock with Releases := out })).outcome := by
  unfold updateLockfile
  rw [h]
  exact ⟨Run.trace_call _ _, Run.outcome_call _ _⟩

/-- C2: when the names of the resolved releases all occur in the lock, the lock
that `updateLockfile` passes to `SaveKilnfileLock` has as many entries as the
original, with the same names and versions position by position, and every entry
whose name is the name of no resolved release is the original entry, equal in all
fields. -/
theorem updateLockfile_frame {K : Type} (f : CompileBuiltReleases K)
    (ups : List remoteReleaseWithSHA1) (kilnfileLock : KilnfileLock)
    (h : ∀ up ∈ ups, up.Remote.ID.Name ∈ kilnfileLock.Releases.map (·.Name)) :
    ∃ saved : KilnfileLock,
      (updateLockfile f ups kilnfileLock).trace =
        [.SaveKilnfileLock f.Options.Kilnfile saved] ∧
      saved.Releases.length = kilnfileLock.Releases.length ∧
      saved.Releases.map (·.Name) = kilnfileLock.Releases.map (·.Name) ∧
      saved.Releases.map (·.Version) = kilnfileLock.Releases.map (·.Version) ∧
      ∀ (i : Nat) (old : ReleaseLock), kilnfileLock.Releases[i]? = some old →
        (∀ up ∈ ups, up.Remote.ID.Name ≠ old.Name) → saved.Releases[i]? = some old := by
  obtain ⟨out, hout, hN, hV, hframe⟩ := updateLockfile.loop_frame ups kilnfileLock.Releases h
  refine ⟨{ kilnfileLock with Releases := out },
    (updateLockfile_of_loop f ups kilnfileLock out hout).1, ?_, hN, hV, hframe⟩
  have := congrArg List.length hN
  simpa using this

/-- C2 at the lock `[a, b]` with `b` resolved: the entry of `a` is saved as it was. -/
theorem updateLockfile_frame_witness :
    (∀ up ∈ [demoResolvedB], up.Remote.ID.Name ∈ demoLock.Releases.map (·.Name)) ∧
    ∃ saved : KilnfileLock,
      (updateLockfile demoCommandOk [demoResolvedB] demoLock).trace =
        [.SaveKilnfileLock demoCommandOk.Options.Kilnfile saved] ∧
      saved.Releases.length = demoLock.Releases.length ∧
      saved.Releases.map (·.Name) = demoLock.Releases.map (·.Name) ∧
      saved.Releases.map (·.Version) = demoLock.Releases.map (·.Version) ∧
      ∀ (i : Nat) (old : ReleaseLock), demoLock.Releases[i]? = some old →
        (∀ up ∈ [demoResolvedB], up.Remote.ID.Name ≠ old.Name) →
          saved.Releases[i]? = some old :=
  ⟨by decide, updateLockfile_frame demoCommandOk [demoResolvedB] demoLock (by decide)⟩

/-- C3: on a lock with unique names and resolved releases with distinct names that
all occur in the lock, `updateLockfile` saves a lock in which, for each resolved
release, there is an entry with its name, and an entry with its name has
`RemoteSource`, `RemotePath` and `SHA1` equal to the `SourceID`, `RemotePath` and
`SHA1` of the resolved release, with the `Name` and `Version` of the original entry
at that position. -/
theorem updateLockfile_overwrites {K : Type} (f : CompileBuiltReleases K)
    (ups : List remoteReleaseWithSHA1) (kilnfileLock : KilnfileLock)
    (hnd : (kilnfileLock.Releases.map (·.Name)).Nodup)
    (hups : (ups.map (·.Remote.ID.Name)).Nodup)
    (h : ∀ up ∈ ups, up.Remote.ID.Name ∈ kilnfileLock.Releases.map (·.Name)) :
    ∃ saved : KilnfileLock,
      (updateLockfile f ups kilnfileLock).trace =
        [.SaveKilnfileLock f.Options.Kilnfile saved] ∧
      ∀ up ∈ ups,
        (∃ new ∈ saved.Releases, new.Name = up.Remote.ID.Name) ∧
        ∀ (i : Nat) (new : ReleaseLock), saved.Releases[i]? = some new →
          new.Name = up.Remote.ID.Name →
            new.RemoteSource = up.Remote.SourceID ∧
            new.RemotePath = up.Remote.RemotePath ∧
            new.SHA1 = up.SHA1 ∧
            ∃ old, kilnfileLock.Releases[i]? = some old ∧
              new.Name = old.Name ∧ new.Version = old.Version := by
  obtain ⟨out, hout, hN, _, _⟩ := updateLockfile.loop_frame ups kilnfileLock.Releases h
  have hover := updateLockfile.loop_overwrites ups kilnfileLock.Releases out h hnd hups hout
  refine ⟨{ kilnfileLock with Releases := out },
    (updateLockfile_of_loop f ups kilnfileLock out hout).1, ?_⟩
  intro up hup
  have hat : ∀ (i : Nat) (new : ReleaseLock), out[i]? = some new →
      new.Name = up.Remote.ID.Name →
      ∃ old, kilnfileLock.Releases[i]? = some old ∧ new = updateLockfile.assign up old := by
    intro i new hi hname
    have hmap := congrArg (fun l => l[i]?) hN
    simp only [List.getElem?_map, hi, Option.map_some'] at hmap
    cases hold : kilnfileLock.Releases[i]? with
    | none => rw [hold] at hmap; simp at hmap
    | some old =>
      rw [hold] at hmap
      simp only [Option.map_some', Option.some.injEq] at hmap
      have := hover up hup i old hold (hmap.symm.trans hname)
      rw [hi] at this
      exact ⟨old, rfl, Option.some.inj this⟩
  constructor
  · have hmem : up.Remote.ID.Name ∈ out.map (·.Name) := by rw [hN]; exact h up hup
    obtain ⟨new, hnew, hname⟩ := List.mem_map.mp hmem
    exact ⟨new, hnew, hname⟩
  · intro i new hi hname
    obtain ⟨old, hold, rfl⟩ := hat i new hi hname
    exact ⟨rfl, rfl, rfl, old, hold, rfl, rfl⟩

/-- C3 at the lock `[a, b]` with `b` resolved. -/
theorem updateLockfile_overwrites_witness :
    (demoLock.Releases.map (·.Name)).Nodup ∧
    (([demoResolvedB].map (·.Remote.ID.Name)).Nodup) ∧
    (∀ up ∈ [demoResolvedB], up.Remote.ID.Name ∈ demoLock.Releases.map (·.Name)) ∧
    ∃ saved : KilnfileLock,
      (updateLockfile demoCommandOk [demoResolvedB] demoLock).trace =
        [.SaveKilnfileLock demoCommandOk.Options.Kilnfile saved] ∧
      ∀ up ∈ [demoResolvedB],
        (∃ new ∈ saved.Releases, new.Name = up.Remote.ID.Name) ∧
        ∀ (i : Nat) (new : ReleaseLock), saved.Releases[i]? = some new →
          new.Name = up.Remote.ID.Name →
            new.RemoteSource = up.Remote.SourceID ∧
            new.RemotePath = up.Remote.RemotePath ∧
            new.SHA1 = up.SHA1 ∧
            ∃ old, demoLock.Releases[i]? = some old ∧
              new.Name = old.Name ∧ new.Version = old.Version :=
  ⟨by decide, by decide, by decide,
    updateLockfile_overwrites demoCommandOk [demoResolvedB] demoLock
      (by decide) (by decide) (by decide)⟩

theorem updateLockfile.matchingRelease_split (name : String) (pre post : List ReleaseLock)
    (entry : ReleaseLock) (hpre : ∀ x ∈ pre, x.Name ≠ name) (hentry : entry.Name = name) :
    updateLockfile.matchingRelease name (pre ++ entry :: post) = some pre.length := by
  induction pre with
  | nil => simp [updateLockfile.matchingRelease, hentry]
  | cons p rest ih =>
    have hp : p.Name ≠ name := hpre p (List.mem_cons_self _ _)
    have hrest : ∀ x ∈ rest, x.Name ≠ name := fun x hx => hpre x (List.mem_cons_of_mem _ hx)
    simp [updateLockfile.matchingRelease, hp, ih hrest]

theorem updateLockfile.store_split (up : remoteReleaseWithSHA1) (pre post : List ReleaseLock)
    (entry : ReleaseLock) :
    updateLockfile.store up pre.length (pre ++ entry :: post) =
      pre ++ updateLockfile.assign up entry :: post := by
  induction pre with
  | nil => simp [updateLockfile.store]
  | cons p rest ih => simp [updateLockfile.store, ih]

/-- C8, as the code behaves: `updateLockfile` compares names only. For a resolved
release whose `Name` is that of a lock entry and whose `Version` differs from the
entry's, it overwrites `RemoteSource`, `RemotePath` and `SHA1` of the first entry
with that name, keeps the entry's `Name` and `Version`, passes the lock to
`SaveKilnfileLock` and returns what `SaveKilnfileLock` returns. -/
theorem updateLockfile_ignores_version {K : Type} (f : CompileBuiltReleases K)
    (up : remoteReleaseWithSHA1) (kilnfileLock : KilnfileLock)
    (pre post : List ReleaseLock) (entry : ReleaseLock)
    (hsplit : kilnfileLock.Releases = pre ++ entry :: post)
    (hpre : ∀ x ∈ pre, x.Name ≠ up.Remote.ID.Name)
    (hname : entry.Name = up.Remote.ID.Name)
    (_hversion : entry.Version ≠ up.Remote.ID.Version) :
    (updateLockfile f [up] kilnfileLock).trace =
      [.SaveKilnfileLock f.Options.Kilnfile
        { kilnfileLock with
          Releases := pre ++
            { Name := entry.Name, Version := entry.Version,
              RemoteSource := up.Remote.SourceID, RemotePath := up.Remote.RemotePath,
              SHA1 := up.SHA1 } :: post }] ∧
    (updateLockfile f [up] kilnfileLock).outcome =
      (Run.ofExcept (f.KilnfileLoader.SaveKilnfileLock f.Options.Kilnfile
        { kilnfileLock with
          Releases := pre ++
            { Name := entry.Name, Version := entry.Version,
              RemoteSource := up.Remote.SourceID, RemotePath := up.Remote.RemotePath,
              SHA1 := up.SHA1 } :: post })).outcome := by
  apply updateLockfile_of_loop
  rw [hsplit]
  simp only [updateLockfile.loop,
    updateLockfile.matchingRelease_split _ pre post entry hpre hname,
    updateLockfile.store_split]
  rfl

/-- The amended C8 at the lock `[a, b]` and a resolved release `b` of version 9. -/
theorem updateLockfile_ignores_version_witness :
    (updateLockfile demoCommandOk [demoResolvedOtherVersion] demoLock).trace =
      [.SaveKilnfileLock "Kilnfile"
        { Releases := [demoLockA,
            { Name := "b", Version := "2", RemoteSource := "compiled",
              RemotePath := "b-9-os-1.tgz", SHA1 := "999" }],
          Stemcell := demoLock.Stemcell }] ∧
    (updateLockfile demoCommandOk [demoResolvedOtherVersion] demoLock).outcome = .ok () :=
  updateLockfile_ignores_version demoCommandOk demoResolvedOtherVersion demoLock
    [demoLockA] [] demoLockB rfl (by decide) (by decide) (by decide)

/-- C8 fails on the code: for the lock `[a, b]`, where `b` has version 2, and a
resolved release named `b` of version 9, `updateLockfile` returns no error,
overwrites the entry of `b` and saves the lock. -/
theorem updateLockfile_version_mismatch_saved :
    demoResolvedOtherVersion.Remote.ID.Name = demoLockB.Name ∧
    demoResolvedOtherVersion.Remote.ID.Version ≠ demoLockB.Version ∧
    (updateLockfile demoCommandOk [demoResolvedOtherVersion] demoLock).outcome = .ok () ∧
    (updateLockfile demoCommandOk [demoResolvedOtherVersion] demoLock).trace =
      [.SaveKilnfileLock "Kilnfile"
        { Releases := [demoLockA,
            { Name := "b", Version := "2", RemoteSource := "compiled",
              RemotePath := "b-9-os-1.tgz", SHA1 := "999" }],
          Stemcell := { OS := "os", Version := "1" } }] := by
  decide

/-! ## Cache resolution: `downloadPreCompiledReleases` -/

@[simp] theorem Run.call_ok {α : Type} (ev : Event) (a : α) :
    Run.call ev (.ok a) = ⟨.ok a, [ev]⟩ := rfl

@[simp] theorem Run.call_error {α : Type} (ev : Event) (e : Error) :
    (Run.call ev (.error e) : Run α) = ⟨.error e, [ev]⟩ := rfl

@[simp] theorem Run.ofExcept_ok {α : Type} (a : α) :
    Run.ofExcept (.ok a) = ⟨.ok a, []⟩ := rfl

@[simp] theorem Run.ofExcept_error {α : Type} (e : Error) :
    (Run.ofExcept (.error e) : Run α) = ⟨.error e, []⟩ := rfl

@[simp] theorem Run.wrapErr_ok {α : Type} (context : String) (a : α) (t : List Event) :
    Run.wrapErr context ⟨.ok a, t⟩ = ⟨.ok a, t⟩ := rfl

@[simp] theorem Run.wrapErr_error {α : Type} (context : String) (e : Error)
    (t : List Event) :
    (Run.wrapErr context ⟨.error e, t⟩ : Run α) = ⟨.error (.wrap context e), t⟩ := rfl

@[simp] theorem Run.bind_mk_ok {α β : Type} (a : α) (t : List Event) (k : α → Run β) :
    Run.bind ⟨.ok a, t⟩ k = ⟨(k a).outcome, t ++ (k a).trace⟩ := rfl

@[simp] theorem Run.bind_mk_error {α β : Type} (e : Error) (t : List Event)
    (k : α → Run β) :
    Run.bind ⟨.error e, t⟩ k = ⟨.error e, t⟩ := rfl

/-- The loop of `downloadPreCompiledReleases`, when it ends without error, extends
the two slices: the remaining one by the candidates reported not found, the
pre-compiled one by one resolved release per candidate reported found. -/
theorem downloadPreCompiledReleases.loop_partition {K : Type} (f : CompileBuiltReleases K)
    (pub : MultiReleaseSource) (stemcell : Stemcell) (built : List Remote)
    (accP pre : List remoteReleaseWithSHA1) (accR rem : List Remote)
    (h : (downloadPreCompiledReleases.loop f pub stemcell built accP accR).outcome =
      .ok (pre, rem)) :
    rem = accR ++ built.filter (reportedNotFound pub stemcell) ∧
    ∃ pre2, pre = accP ++ pre2 ∧
      List.Forall₂ (resolvedFromCache f pub stemcell)
        (built.filter (reportedFound pub stemcell)) pre2 := by
  induction built generalizing accP accR with
  | nil =>
    simp only [downloadPreCompiledReleases.loop, Run.outcome_pure, Outcome.ok.injEq,
      Prod.mk.injEq] at h
    obtain ⟨rfl, rfl⟩ := h
    exact ⟨by simp, [], by simp, by simp⟩
  | cons b rest ih =>
    unfold downloadPreCompiledReleases.loop at h
    cases hg : pub.GetMatchedRelease (downloadPreCompiledReleases.spec stemcell b) with
    | error e => simp [hg] at h
    | ok matched =>
      obtain ⟨remote, found⟩ := matched
      cases found with
      | false =>
        simp only [hg, Run.call_ok, Run.wrapErr_ok, Run.bind_mk_ok, Bool.not_false,
          if_true] at h
        obtain ⟨hrem, pre2, hpre, hall⟩ := ih accP (accR ++ [b]) h
        refine ⟨?_, pre2, hpre, ?_⟩
        · simp [hrem, List.filter_cons, reportedNotFound, hg]
        · simpa [List.filter_cons, reportedFound, hg] using hall
      | true =>
        cases hd : pub.DownloadRelease f.Options.ReleasesDir remote
            DefaultDownloadThreadCount with
        | error e => simp [hg, hd] at h
        | ok loc =>
          simp only [hg, hd, Run.call_ok, Run.wrapErr_ok, Run.bind_mk_ok, Bool.not_true,
            Bool.false_eq_true, if_false] at h
          obtain ⟨hrem, pre2, hpre, hall⟩ :=
            ih (accP ++ [{ Remote := remote, SHA1 := loc.SHA1 }]) accR h
          refine ⟨?_, { Remote := remote, SHA1 := loc.SHA1 } :: pre2, ?_, ?_⟩
          · simp [hrem, List.filter_cons, reportedNotFound, hg]
          · simp [hpre]
          · simp only [List.filter_cons, reportedFound, hg, if_true]
            exact List.Forall₂.cons ⟨remote, loc, hg, hd, rfl⟩ hall

/-- The loop of `downloadPreCompiledReleases`, when it ends without error, puts every
candidate in one of the two slices. -/
theorem downloadPreCompiledReleases.loop_length {K : Type} (f : CompileBuiltReleases K)
    (pub : MultiReleaseSource) (stemcell : Stemcell) (built : List Remote)
    (accP pre : List remoteReleaseWithSHA1) (accR rem : List Remote)
    (h : (downloadPreCompiledReleases.loop f pub stemcell built accP accR).outcome =
      .ok (pre, rem)) :
    pre.length + rem.length = accP.length + accR.length + built.length := by
  induction built generalizing accP accR with
  | nil =>
    simp only [downloadPreCompiledReleases.loop, Run.outcome_pure, Outcome.ok.injEq,
      Prod.mk.injEq] at h
    obtain ⟨rfl, rfl⟩ := h
    simp
  | cons b rest ih =>
    unfold downloadPreCompiledReleases.loop at h
    cases hg : pub.GetMatchedRelease (downloadPreCompiledReleases.spec stemcell b) with
    | error e => simp [hg] at h
    | ok matched =>
      obtain ⟨remote, found⟩ := matched
      cases found with
      | false =>
        simp only [hg, Run.call_ok, Run.wrapErr_ok, Run.bind_mk_ok, Bool.not_false,
          if_true] at h
        have := ih accP (accR ++ [b]) h
        simp only [List.length_append, List.length_cons, List.length_nil] at this ⊢
        omega
      | true =>
        cases hd : pub.DownloadRelease f.Options.ReleasesDir remote
            DefaultDownloadThreadCount with
        | error e => simp [hg, hd] at h
        | ok loc =>
          simp only [hg, hd, Run.call_ok, Run.wrapErr_ok, Run.bind_mk_ok, Bool.not_true,
            Bool.false_eq_true, if_false] at h
          have := ih (accP ++ [{ Remote := remote, SHA1 := loc.SHA1 }]) accR h
          simp only [List.length_append, List.length_cons, List.length_nil] at this ⊢
          omega

/-- C4: when `downloadPreCompiledReleases` succeeds, the remaining list is the
sublist of the candidates for which `GetMatchedRelease` reported `found = false`, in
input order; the pre-compiled list has, in input order, one element per candidate
reported `found = true`, holding the matched remote and the `SHA1` of the local
release that `DownloadRelease` returned for it; and the lengths of the two lists add
up to the number of candidates. -/
theorem downloadPreCompiledReleases_partition {K : Type} (f : CompileBuiltReleases K)
    (publishableReleaseSources : MultiReleaseSource) (builtReleases : List Remote)
    (stemcell : Stemcell) (preCompiledReleases : List remoteReleaseWithSHA1)
    (remainingBuiltReleases : List Remote)
    (h : (downloadPreCompiledReleases f publishableReleaseSources builtReleases
      stemcell).outcome = .ok (preCompiledReleases, remainingBuiltReleases)) :
    remainingBuiltReleases =
      builtReleases.filter (reportedNotFound publishableReleaseSources stemcell) ∧
    List.Forall₂ (resolvedFromCache f publishableReleaseSources stemcell)
      (builtReleases.filter (reportedFound publishableReleaseSources stemcell))
      preCompiledReleases ∧
    preCompiledReleases.length + remainingBuiltReleases.length = builtReleases.length := by
  unfold downloadPreCompiledReleases at h
  obtain ⟨hrem, pre2, hpre, hall⟩ :=
    downloadPreCompiledReleases.loop_partition f publishableReleaseSources stemcell
      builtReleases [] preCompiledReleases [] remainingBuiltReleases h
  have hlen := downloadPreCompiledReleases.loop_length f publishableReleaseSources stemcell
      builtReleases [] preCompiledReleases [] remainingBuiltReleases h
  simp only [List.nil_append] at hrem hpre
  subst hpre
  exact ⟨hrem, hall, by simpa using hlen⟩

/-- C4 at the candidates `[c, b]`: the cache offers `b` only, so `c` remains and `b`
is returned with the digest of the downloaded release. -/
theorem downloadPreCompiledReleases_partition_witness :
    (downloadPreCompiledReleases demoCommandOk demoSources
        [findBuiltReleases.remoteOf demoLockC, findBuiltReleases.remoteOf demoLockB]
        demoLock.Stemcell).outcome =
      .ok ([demoResolvedB], [findBuiltReleases.remoteOf demoLockC]) ∧
    [findBuiltReleases.remoteOf demoLockC] =
      [findBuiltReleases.remoteOf demoLockC, findBuiltReleases.remoteOf demoLockB].filter
        (reportedNotFound demoSources demoLock.Stemcell) ∧
    List.Forall₂ (resolvedFromCache demoCommandOk demoSources demoLock.Stemcell)
      ([findBuiltReleases.remoteOf demoLockC, findBuiltReleases.remoteOf demoLockB].filter
        (reportedFound demoSources demoLock.Stemcell))
      [demoResolvedB] ∧
    [demoResolvedB].length + [findBuiltReleases.remoteOf demoLockC].length =
      [findBuiltReleases.remoteOf demoLockC, findBuiltReleases.remoteOf demoLockB].length :=
  ⟨by decide,
    downloadPreCompiledReleases_partition demoCommandOk demoSources
      [findBuiltReleases.remoteOf demoLockC, findBuiltReleases.remoteOf demoLockB]
      demoLock.Stemcell [demoResolvedB] [findBuiltReleases.remoteOf demoLockC] (by decide)⟩

/-! ## Which operations a method invokes -/

@[simp] theorem invocations_nil (c : Call) : invocations c [] = 0 := rfl

@[simp] theorem invocations_append (c : Call) (s t : List Event) :
    invocations c (s ++ t) = invocations c s + invocations c t := by
  simp [invocations, List.countP_append]

theorem invocations_eq_zero_of_only {α : Type} (cs : List Call) (r : Run α) (c : Call)
    (h : Run.only cs r) (hc : c ∉ cs) : invocations c r.trace = 0 := by
  unfold invocations
  rw [List.countP_eq_zero]
  intro ev hev
  have := h ev hev
  simp only [decide_eq_true_eq]
  intro heq
  exact hc (heq ▸ this)

theorem Run.only_pure {α : Type} (cs : List Call) (a : α) : Run.only cs (Run.pure a) := by
  intro ev hev; simp at hev

theorem Run.only_fail {α : Type} (cs : List Call) (e : Error) :
    Run.only cs (Run.fail e : Run α) := by
  intro ev hev; simp at hev

theorem Run.only_ofExcept {α : Type} (cs : List Call) (res : Except Error α) :
    Run.only cs (Run.ofExcept res) := by
  intro ev hev; simp at hev

theorem Run.only_call {α : Type} (cs : List Call) (ev : Event) (res : Except Error α)
    (h : ev.call ∈ cs) : Run.only cs (Run.call ev res) := by
  intro ev2 hev
  simp only [Run.trace_call, List.mem_singleton] at hev
  exact hev ▸ h

theorem Run.only_wrapErr {α : Type} (cs : List Call) (context : String) (r : Run α)
    (h : Run.only cs r) : Run.only cs (Run.wrapErr context r) := by
  intro ev hev
  rw [Run.trace_wrapErr] at hev
  exact h ev hev

theorem Run.only_bind {α β : Type} (cs : List Call) (r : Run α) (k : α → Run β)
    (h : Run.only cs r) (hk : ∀ a, Run.only cs (k a)) : Run.only cs (Run.bind r k) := by
  intro ev hev
  rw [Run.trace_bind] at hev
  rcases List.mem_append.mp hev with hev | hev
  · exact h ev hev
  · cases ho : r.outcome with
    | ok a => rw [ho] at hev; exact hk a ev hev
    | error e => rw [ho] at hev; simp at hev
    | panic e => rw [ho] at hev; simp at hev

theorem Run.only_deferring {α : Type} (cs : List Call) (body : Run α) (deferred : Run Unit)
    (h : Run.only cs body) (hd : Run.only cs deferred) :
    Run.only cs (Run.deferring body deferred) := by
  intro ev hev
  rw [Run.trace_deferring] at hev
  rcases List.mem_append.mp hev with hev | hev
  · exact h ev hev
  · exact hd ev hev

theorem Run.only_mono {α : Type} (cs ds : List Call) (r : Run α) (h : Run.only cs r)
    (hsub : ∀ c ∈ cs, c ∈ ds) : Run.only ds r :=
  fun ev hev => hsub _ (h ev hev)

theorem downloadPreCompiledReleases_only {K : Type} (f : CompileBuiltReleases K)
    (pub : MultiReleaseSource) (built : List Remote) (stemcell : Stemcell) :
    Run.only [.GetMatchedRelease, .DownloadRelease]
      (downloadPreCompiledReleases f pub built stemcell) := by
  unfold downloadPreCompiledReleases
  generalize ([] : List remoteReleaseWithSHA1) = accP
  generalize ([] : List Remote) = accR
  induction built generalizing accP accR with
  | nil => exact Run.only_pure _ _
  | cons b rest ih =>
    unfold downloadPreCompiledReleases.loop
    apply Run.only_bind
    · exact Run.only_wrapErr _ _ _ (Run.only_call _ _ _ (by simp [Event.call]))
    · intro matched
      split
      · exact ih _ _
      · apply Run.only_bind
        · exact Run.only_wrapErr _ _ _ (Run.only_call _ _ _ (by simp [Event.call]))
        · intro loc
          exact ih _ _

theorem uploadReleasesToDirector_only {K : Type} (rt : Runtime) (f : CompileBuiltReleases K)
    (built : List Remote) (releaseSource : MultiReleaseSource) (director : BoshDirector) :
    Run.only [.DownloadRelease, .UploadReleaseFile]
      (uploadReleasesToDirector rt f built releaseSource director) := by
  unfold uploadReleasesToDirector
  generalize ([] : List ID) = acc
  induction built generalizing acc with
  | nil => exact Run.only_pure _ _
  | cons b rest ih =>
    unfold uploadReleasesToDirector.loop
    apply Run.only_bind
    · unfold uploadReleasesToDirector.step
      apply Run.only_bind
      · exact Run.only_wrapErr _ _ _ (Run.only_call _ _ _ (by simp [Event.call]))
      · intro loc
        apply Run.only_bind
        · exact Run.only_wrapErr _ _ _ (Run.only_ofExcept _ _)
        · intro file
          exact Run.only_wrapErr _ _ _ (Run.only_call _ _ _ (by simp [Event.call]))
    · intro _
      exact ih _

theorem uploadStemcellToDirector_only {K : Type} (rt : Runtime) (f : CompileBuiltReleases K)
    (director : BoshDirector) :
    Run.only [.UploadStemcellFile] (uploadStemcellToDirector rt f director) := by
  unfold uploadStemcellToDirector
  apply Run.only_bind
  · exact Run.only_wrapErr _ _ _ (Run.only_ofExcept _ _)
  · intro file
    apply Run.only_bind
    · exact Run.only_wrapErr _ _ _ (Run.only_call _ _ _ (by simp [Event.call]))
    · intro _
      apply Run.only_bind
      · exact Run.only_wrapErr _ _ _ (Run.only_ofExcept _ _)
      · intro metadata
        cases metadata with
        | none => intro ev hev; simp at hev
        | some m => exact Run.only_pure _ _

theorem NewOSVersionSlug_only (os version : String) :
    Run.only [] (NewOSVersionSlug os version) := by
  unfold NewOSVersionSlug
  intro ev hev
  split at hev
  · simp at hev
  · split at hev <;> simp at hev

theorem NewReleaseSlug_only (name version : String) :
    Run.only [] (NewReleaseSlug name version) := by
  unfold NewReleaseSlug
  intro ev hev
  split at hev
  · simp at hev
  · split at hev <;> simp at hev

theorem downloadCompiledReleases_only {K : Type} (rt : Runtime) (f : CompileBuiltReleases K)
    (stemcellManifest : StemcellManifest) (releaseIDs : List ID) (deployment : Deployment)
    (director : BoshDirector) :
    Run.only [.ExportRelease, .DownloadResourceUnchecked, .VerifyFilePath]
      (downloadCompiledReleases rt f stemcellManifest releaseIDs deployment director) := by
  unfold downloadCompiledReleases
  apply Run.only_bind
  · exact Run.only_mono _ _ _ (NewOSVersionSlug_only _ _) (by decide)
  intro osVersionSlug
  generalize ([] : List Local) = acc
  induction releaseIDs generalizing acc with
  | nil => exact Run.only_pure _ _
  | cons rel rest ih =>
    unfold downloadCompiledReleases.loop
    apply Run.only_bind
    · unfold downloadCompiledReleases.step
      apply Run.only_bind
      · exact Run.only_mono _ _ _ (NewReleaseSlug_only _ _) (by decide)
      intro releaseSlug
      apply Run.only_bind
      · exact Run.only_wrapErr _ _ _ (Run.only_call _ _ _ (by simp [Event.call]))
      intro result
      apply Run.only_bind
      · exact Run.only_wrapErr _ _ _ (Run.only_ofExcept _ _)
      intro fd
      apply Run.only_bind
      · exact Run.only_wrapErr _ _ _ (Run.only_call _ _ _ (by simp [Event.call]))
      intro _
      apply Run.only_bind
      · exact Run.only_wrapErr _ _ _ (Run.only_ofExcept _ _)
      intro _
      apply Run.only_bind
      · exact Run.only_wrapErr _ _ _ (Run.only_ofExcept _ _)
      intro fd2
      apply Run.only_bind
      · exact Run.only_wrapErr _ _ _ (Run.only_ofExcept _ _)
      intro sum
      apply Run.only_bind
      · exact Run.only_wrapErr _ _ _ (Run.only_ofExcept _ _)
      intro _
      apply Run.only_bind
      · exact Run.only_wrapErr _ _ _ (Run.only_ofExcept _ _)
      intro digest
      apply Run.only_bind
      · exact Run.only_wrapErr _ _ _ (Run.only_call _ _ _ (by simp [Event.call]))
      intro _
      exact Run.only_pure _ _
    · intro _
      exact ih _

theorem uploadCompiledReleases_only (rt : Runtime) (downloaded : List Local)
    (releaseUploader : ReleaseUploader) (stemcell : StemcellManifest) :
    Run.only [.UploadRelease]
      (uploadCompiledReleases rt downloaded releaseUploader stemcell) := by
  unfold uploadCompiledReleases
  generalize ([] : List remoteReleaseWithSHA1) = acc
  induction downloaded generalizing acc with
  | nil => exact Run.only_pure _ _
  | cons d rest ih =>
    unfold uploadCompiledReleases.loop
    apply Run.only_bind
    · unfold uploadCompiledReleases.step
      apply Run.only_bind
      · exact Run.only_wrapErr _ _ _ (Run.only_ofExcept _ _)
      intro file
      apply Run.only_bind
      · exact Run.only_wrapErr _ _ _ (Run.only_call _ _ _ (by simp [Event.call]))
      intro _
      exact Run.only_pure _ _
    · intro _
      exact ih _

theorem compileAndDownloadReleases.deferred_only (deployment : Deployment)
    (director : BoshDirector) :
    Run.only [.Delete, .CleanUp] (compileAndDownloadReleases.deferred deployment director) := by
  unfold compileAndDownloadReleases.deferred
  cases deployment.Delete true with
  | error e => intro ev hev; simp at hev; subst hev; simp [Event.call]
  | ok _ =>
    cases director.CleanUp true false false <;>
      (intro ev hev; simp at hev; rcases hev with rfl | rfl <;> simp [Event.call])

/-- The deferred function invokes `Delete` exactly once, whatever `Delete` and
`CleanUp` answer. -/
theorem compileAndDownloadReleases.deferred_delete_once (deployment : Deployment)
    (director : BoshDirector) :
    invocations .Delete (compileAndDownloadReleases.deferred deployment director).trace = 1 := by
  unfold compileAndDownloadReleases.deferred
  cases deployment.Delete true with
  | error e => simp [invocations, Event.call]
  | ok _ =>
    cases director.CleanUp true false false <;> simp [invocations, Event.call]

/-! ## Teardown: `compileAndDownloadReleases` -/

theorem invocations_singleton (c : Call) (ev : Event) :
    invocations c [ev] = if ev.call = c then 1 else 0 := by
  unfold invocations
  by_cases h : ev.call = c <;> simp [List.countP_cons, h]

/-- The part of `compileAndDownloadReleases` under the `defer` invokes `Delete`
exactly once, whether `downloadCompiledReleases` succeeds or fails. -/
theorem compileAndDownloadReleases.deferring_delete_once {K : Type} (rt : Runtime)
    (f : CompileBuiltReleases K) (stemcellManifest : StemcellManifest)
    (releaseIDs : List ID) (deployment : Deployment) (director : BoshDirector) :
    invocations .Delete
      (Run.deferring
        (Run.bind
          (downloadCompiledReleases rt f stemcellManifest releaseIDs deployment director)
          fun downloadedReleases => Run.pure (downloadedReleases, stemcellManifest))
        (compileAndDownloadReleases.deferred deployment director)).trace = 1 := by
  rw [Run.trace_deferring, invocations_append,
    compileAndDownloadReleases.deferred_delete_once]
  have hbody : Run.only [.ExportRelease, .DownloadResourceUnchecked, .VerifyFilePath]
      (Run.bind
        (downloadCompiledReleases rt f stemcellManifest releaseIDs deployment director)
        fun downloadedReleases => Run.pure (downloadedReleases, stemcellManifest)) :=
    Run.only_bind _ _ _ (downloadCompiledReleases_only _ _ _ _ _ _)
      (fun _ => Run.only_pure _ _)
  rw [invocations_eq_zero_of_only _ _ _ hbody (by decide)]

/-- C5, as the code behaves: in a run of `compileAndDownloadReleases` in which the
deployment handle was obtained, when manifest generation and `deployment.Update`
succeeded, `Delete` is invoked exactly once before the function returns or panics,
whether exporting, downloading and verifying the releases succeeds or fails; when
manifest generation fails, the function returns before its `defer` statement and
`Delete` is not invoked. -/
theorem compileAndDownloadReleases_teardown {K : Type} (rt : Runtime)
    (f : CompileBuiltReleases K) (releaseSource : MultiReleaseSource)
    (builtReleases : List Remote) (director : BoshDirector) (releaseIDs : List ID)
    (stemcellManifest : StemcellManifest) (id : String) (deployment : Deployment)
    (hdirector : f.BoshDirectorFactory = .ok director)
    (hreleases : (uploadReleasesToDirector rt f builtReleases releaseSource
      director).outcome = .ok releaseIDs)
    (hstemcell : (uploadStemcellToDirector rt f director).outcome = .ok stemcellManifest)
    (hid : rt.NewRandom = .ok id)
    (hfind : director.FindDeployment ("compile-built-releases-" ++ id) = .ok deployment) :
    (∀ manifest,
      rt.Generate ("compile-built-releases-" ++ id) releaseIDs stemcellManifest =
        .ok manifest →
      deployment.Update manifest = .ok () →
      invocations .Delete
        (compileAndDownloadReleases rt f releaseSource builtReleases).trace = 1) ∧
    (∀ e,
      rt.Generate ("compile-built-releases-" ++ id) releaseIDs stemcellManifest =
        .error e →
      invocations .Delete
        (compileAndDownloadReleases rt f releaseSource builtReleases).trace = 0) := by
  have hup := invocations_eq_zero_of_only _ _ Call.Delete
    (uploadReleasesToDirector_only rt f builtReleases releaseSource director) (by decide)
  have hst := invocations_eq_zero_of_only _ _ Call.Delete
    (uploadStemcellToDirector_only rt f director) (by decide)
  have hrandom : compileAndDownloadReleases.mustNewRandom rt = ⟨.ok id, []⟩ := by
    unfold compileAndDownloadReleases.mustNewRandom
    rw [hid]; rfl
  constructor
  · intro manifest hgen hupdate
    unfold compileAndDownloadReleases
    rw [hdirector, Run.call_ok, Run.wrapErr_ok, Run.bind_mk_ok,
      Run.bind_ok _ _ _ hreleases, Run.bind_ok _ _ _ hstemcell, hrandom, Run.bind_mk_ok]
    simp only [hfind, hgen, hupdate, Run.call_ok, Run.ofExcept_ok, Run.wrapErr_ok,
      Run.bind_mk_ok, invocations_append, hup, hst,
      compileAndDownloadReleases.deferring_delete_once, invocations_singleton, Event.call]
    simp
  · intro e hgen
    unfold compileAndDownloadReleases
    rw [hdirector, Run.call_ok, Run.wrapErr_ok, Run.bind_mk_ok,
      Run.bind_ok _ _ _ hreleases, Run.bind_ok _ _ _ hstemcell, hrandom, Run.bind_mk_ok]
    simp only [hfind, hgen, Run.call_ok, Run.ofExcept_error, Run.wrapErr_ok,
      Run.wrapErr_error, Run.bind_mk_error,
      Run.bind_mk_ok, invocations_append, hup, hst, invocations_singleton, Event.call]
    simp

/-- The amended C5 on two runs for the candidate `b`: one where the verification of
the exported file fails after `Update` succeeded (`Delete` is invoked once), one
where manifest generation fails (`Delete` is not invoked). -/
theorem compileAndDownloadReleases_teardown_witness :
    invocations .Delete
      (compileAndDownloadReleases
        (demoRuntime (.ok "manifest") (.error (.msg "digest mismatch")))
        demoCommandOk demoSources [findBuiltReleases.remoteOf demoLockB]).trace = 1 ∧
    invocations .Delete
      (compileAndDownloadReleases
        (demoRuntime (.error (.msg "no manifest")) (.ok ()))
        demoCommandOk demoSources [findBuiltReleases.remoteOf demoLockB]).trace = 0 :=
  ⟨(compileAndDownloadReleases_teardown
      (demoRuntime (.ok "manifest") (.error (.msg "digest mismatch")))
      demoCommandOk demoSources [findBuiltReleases.remoteOf demoLockB]
      (demoDirector (.ok ()) (.ok ())) [{ Name := "b", Version := "2" }]
      { OperatingSystem := "os", Version := "1" } "0000" (demoDeployment (.ok ()) (.ok ()))
      rfl (by decide) (by decide) rfl rfl).1 "manifest" rfl rfl,
   (compileAndDownloadReleases_teardown
      (demoRuntime (.error (.msg "no manifest")) (.ok ()))
      demoCommandOk demoSources [findBuiltReleases.remoteOf demoLockB]
      (demoDirector (.ok ()) (.ok ())) [{ Name := "b", Version := "2" }]
      { OperatingSystem := "os", Version := "1" } "0000" (demoDeployment (.ok ()) (.ok ()))
      rfl (by decide) (by decide) rfl rfl).2 (.msg "no manifest") rfl⟩

/-- C5 fails on the code: in a run where `FindDeployment` succeeded and manifest
generation fails, and in a run where `FindDeployment` succeeded and
`deployment.Update` fails, the function returns the error without ever invoking
`Delete`. -/
theorem compileAndDownloadReleases_returns_before_defer :
    (compileAndDownloadReleases (demoRuntime (.error (.msg "no manifest")) (.ok ()))
        demoCommandOk demoSources [findBuiltReleases.remoteOf demoLockB]) =
      { outcome := .error (.wrap "couldn't generate bosh manifest" (.msg "no manifest")),
        trace := [.BoshDirectorFactory,
          .DownloadRelease "releases"
            { ID := { Name := "b", Version := "2" }, SourceID := "built",
              RemotePath := "b-2.tgz" },
          .UploadReleaseFile { path := "releases/b-2.tgz" },
          .UploadStemcellFile { path := "stemcell.tgz" },
          .FindDeployment "compile-built-releases-0000"] } ∧
    (compileAndDownloadReleases (demoRuntime (.ok "manifest") (.ok ()))
        (demoCommand demoLock demoSources (.ok demoUploader)
          (.error (.msg "deploy failed")) (.ok ()) (.ok ()))
        demoSources [findBuiltReleases.remoteOf demoLockB]) =
      { outcome := .error (.wrap "updating the bosh deployment" (.msg "deploy failed")),
        trace := [.BoshDirectorFactory,
          .DownloadRelease "releases"
            { ID := { Name := "b", Version := "2" }, SourceID := "built",
              RemotePath := "b-2.tgz" },
          .UploadReleaseFile { path := "releases/b-2.tgz" },
          .UploadStemcellFile { path := "stemcell.tgz" },
          .FindDeployment "compile-built-releases-0000",
          .Update "manifest"] } := by
  decide

/-! ## Failed verification of a digest -/

theorem compileAndDownloadReleases.mustNewRandom_only (rt : Runtime) :
    Run.only [] (compileAndDownloadReleases.mustNewRandom rt) := by
  unfold compileAndDownloadReleases.mustNewRandom
  cases rt.NewRandom <;> (intro ev hev; simp at hev)

theorem updateLockfile_only {K : Type} (f : CompileBuiltReleases K)
    (ups : List remoteReleaseWithSHA1) (kilnfileLock : KilnfileLock) :
    Run.only [.SaveKilnfileLock] (updateLockfile f ups kilnfileLock) := by
  unfold updateLockfile
  cases updateLockfile.loop ups kilnfileLock.Releases with
  | error e => exact Run.only_fail _ _
  | ok out => exact Run.only_call _ _ _ (by simp [Event.call])

/-! ## The structure of `Execute` -/

theorem Execute.classify_nil {K : Type} (rt : Runtime) (f : CompileBuiltReleases K)
    (pub all : MultiReleaseSource) (uploader : ReleaseUploader) (kilnfileLock : KilnfileLock)
    (h : findBuiltReleases all kilnfileLock = ([], none)) :
    Execute.classify rt f pub all uploader kilnfileLock = Run.pure () := by
  unfold Execute.classify
  rw [h]
  rfl

theorem Execute.classify_resolve {K : Type} (rt : Runtime) (f : CompileBuiltReleases K)
    (pub all : MultiReleaseSource) (uploader : ReleaseUploader) (kilnfileLock : KilnfileLock)
    (built : List Remote) (h : findBuiltReleases all kilnfileLock = (built, none))
    (hne : built ≠ []) :
    Execute.classify rt f pub all uploader kilnfileLock =
      Execute.resolve rt f pub all uploader kilnfileLock built := by
  unfold Execute.classify
  rw [h]
  have : ¬ built.length = 0 := by
    intro hl
    exact hne (List.length_eq_zero.mp hl)
  simp [this]

/-- A run of `Execute` whose set-up succeeded: the Kilnfiles are loaded, then
`Execute.classify` runs on the options parsed. -/
theorem Execute_of_setup {K : Type} (rt : Runtime) (f : CompileBuiltReleases K)
    (args : List String) (options : Options) (kilnfile : K) (kilnfileLock : KilnfileLock)
    (uploader : ReleaseUploader)
    (hparse : rt.Parse f.Options args = .ok options)
    (hload : f.KilnfileLoader.LoadKilnfiles options.Kilnfile options.VariablesFiles
      options.Variables = .ok (kilnfile, kilnfileLock))
    (hfinder : f.ReleaseUploaderFinder kilnfile options.UploadTargetID = .ok uploader) :
    Execute rt f args =
      ⟨(Execute.classify rt { f with Options := options }
          (f.MultiReleaseSourceProvider kilnfile true)
          (f.MultiReleaseSourceProvider kilnfile false) uploader kilnfileLock).outcome,
        .LoadKilnfiles options.Kilnfile ::
          (Execute.classify rt { f with Options := options }
            (f.MultiReleaseSourceProvider kilnfile true)
            (f.MultiReleaseSourceProvider kilnfile false) uploader kilnfileLock).trace⟩ := by
  unfold Execute
  simp [hparse, hload, hfinder]

theorem findBuiltReleases_of_all_publishable (s : MultiReleaseSource)
    (kilnfileLock : KilnfileLock)
    (h : ∀ l ∈ kilnfileLock.Releases, sourcePublishable s l = true) :
    findBuiltReleases s kilnfileLock = ([], none) := by
  have hknown : ∀ l ∈ kilnfileLock.Releases, sourceKnown s l = true := by
    intro l hl
    have := h l hl
    unfold sourcePublishable at this
    unfold sourceKnown
    cases hf : s.FindByID l.RemoteSource with
    | ok src => rfl
    | error e => rw [hf] at this; cases this
  rw [findBuiltReleases_classifies_aux s kilnfileLock hknown]
  have hnone : kilnfileLock.Releases.filter (sourceNotPublishable s) = [] := by
    rw [List.filter_eq_nil_iff]
    intro l hl
    have := h l hl
    unfold sourcePublishable at this
    unfold sourceNotPublishable
    cases hf : s.FindByID l.RemoteSource with
    | ok src =>
      rw [hf] at this
      have hp : src.Publishable = true := this
      simp [hp]
    | error e => simp
  rw [hnone]
  rfl

/-- C10, as the code behaves: when the arguments parse, the Kilnfiles load, the
release uploader is found, and the source of every entry of the lock is known and
publishable, `Execute` returns success having called nothing but `LoadKilnfiles`:
no `BoshDirectorFactory`, no search in or download from a release source, no upload
to the director or to the release uploader, and no `SaveKilnfileLock`. -/
theorem Execute_all_publishable {K : Type} (rt : Runtime) (f : CompileBuiltReleases K)
    (args : List String) (options : Options) (kilnfile : K) (kilnfileLock : KilnfileLock)
    (uploader : ReleaseUploader)
    (hparse : rt.Parse f.Options args = .ok options)
    (hload : f.KilnfileLoader.LoadKilnfiles options.Kilnfile options.VariablesFiles
      options.Variables = .ok (kilnfile, kilnfileLock))
    (hfinder : f.ReleaseUploaderFinder kilnfile options.UploadTargetID = .ok uploader)
    (hpub : ∀ l ∈ kilnfileLock.Releases,
      sourcePublishable (f.MultiReleaseSourceProvider kilnfile false) l = true) :
    (Execute rt f args).outcome = .ok () ∧
    (Execute rt f args).trace = [.LoadKilnfiles options.Kilnfile] ∧
    invocations .BoshDirectorFactory (Execute rt f args).trace = 0 ∧
    invocations .GetMatchedRelease (Execute rt f args).trace = 0 ∧
    invocations .DownloadRelease (Execute rt f args).trace = 0 ∧
    invocations .UploadReleaseFile (Execute rt f args).trace = 0 ∧
    invocations .UploadStemcellFile (Execute rt f args).trace = 0 ∧
    invocations .UploadRelease (Execute rt f args).trace = 0 ∧
    invocations .SaveKilnfileLock (Execute rt f args).trace = 0 := by
  rw [Execute_of_setup rt f args options kilnfile kilnfileLock uploader hparse hload hfinder,
    Execute.classify_nil _ _ _ _ _ _ (findBuiltReleases_of_all_publishable _ _ hpub)]
  simp [invocations_singleton, Event.call]

/-- The amended C10 on the lock `[a]`, whose only source is publishable. -/
theorem Execute_all_publishable_witness :
    (∀ l ∈ demoLockPublishable.Releases, sourcePublishable demoSources l = true) ∧
    (Execute (demoRuntime (.ok "manifest") (.ok ()))
      (demoCommandPublishable (.ok demoUploader)) []).outcome = .ok () ∧
    (Execute (demoRuntime (.ok "manifest") (.ok ()))
      (demoCommandPublishable (.ok demoUploader)) []).trace = [.LoadKilnfiles "Kilnfile"] :=
  ⟨by decide,
    (Execute_all_publishable (demoRuntime (.ok "manifest") (.ok ()))
      (demoCommandPublishable (.ok demoUploader)) [] demoOptions () demoLockPublishable
      demoUploader rfl rfl rfl (by decide)).1,
    (Execute_all_publishable (demoRuntime (.ok "manifest") (.ok ()))
      (demoCommandPublishable (.ok demoUploader)) [] demoOptions () demoLockPublishable
      demoUploader rfl rfl rfl (by decide)).2.1⟩

/-- C10 fails on the code: on the lock `[a]`, whose only source is known and
publishable, `Execute` returns an error when `ReleaseUploaderFinder` fails, because
the uploader is looked up before the lock is classified. -/
theorem Execute_all_publishable_uploader_missing :
    (∀ l ∈ demoLockPublishable.Releases, sourcePublishable demoSources l = true) ∧
    Execute (demoRuntime (.ok "manifest") (.ok ()))
        (demoCommandPublishable (.error (.msg "no upload target"))) [] =
      { outcome := .error (.wrap "error loading release uploader" (.msg "no upload target")),
        trace := [.LoadKilnfiles "Kilnfile"] } := by
  decide

/-! ## When the lock is saved -/

theorem Execute.compileRemaining_nil {K : Type} (rt : Runtime) (f : CompileBuiltReleases K)
    (all : MultiReleaseSource) (uploader : ReleaseUploader)
    (updated : List remoteReleaseWithSHA1) :
    Execute.compileRemaining rt f all uploader updated [] = Run.pure updated := by
  simp [Execute.compileRemaining]

theorem Execute.compileRemaining_cons {K : Type} (rt : Runtime) (f : CompileBuiltReleases K)
    (all : MultiReleaseSource) (uploader : ReleaseUploader)
    (updated : List remoteReleaseWithSHA1) (remaining : List Remote)
    (h : remaining ≠ []) :
    Execute.compileRemaining rt f all uploader updated remaining =
      Run.bind (compileAndDownloadReleases rt f all remaining)
        fun compiled =>
          Run.bind (uploadCompiledReleases rt compiled.1 uploader compiled.2)
            fun uploadedReleases => Run.pure (updated ++ uploadedReleases) := by
  have : remaining.length > 0 := List.length_pos.mpr h
  simp [Execute.compileRemaining, this]

/-! ### Methods that never panic -/

theorem invocations_cons_LoadKilnfiles (c : Call) (kilnfile : String) (t : List Event)
    (hc : c ≠ .LoadKilnfiles) :
    invocations c (.LoadKilnfiles kilnfile :: t) = invocations c t := by
  have := invocations_append c [.LoadKilnfiles kilnfile] t
  simp only [List.singleton_append] at this
  rw [this, invocations_singleton]
  simp [Event.call, Ne.symm hc]

/-! ### After the Kilnfiles are loaded -/

/-- The loop of `downloadPreCompiledReleases` returns an error when a candidate is
matched and the download of the match fails. -/
theorem downloadPreCompiledReleases.loop_error_of_failed_download {K : Type}
    (f : CompileBuiltReleases K) (pub : MultiReleaseSource) (stemcell : Stemcell)
    (built : List Remote) (candidate remote : Remote) (e : Error)
    (accP : List remoteReleaseWithSHA1) (accR : List Remote)
    (hmem : candidate ∈ built)
    (hmatch : pub.GetMatchedRelease (downloadPreCompiledReleases.spec stemcell candidate) =
      .ok (remote, true))
    (hfail : pub.DownloadRelease f.Options.ReleasesDir remote DefaultDownloadThreadCount =
      .error e) :
    ∃ err, (downloadPreCompiledReleases.loop f pub stemcell built accP accR).outcome =
      .error err := by
  induction built generalizing accP accR with
  | nil => simp at hmem
  | cons b rest ih =>
    unfold downloadPreCompiledReleases.loop
    by_cases hb : b = candidate
    · subst hb
      simp [hmatch, hfail]
    · have hrest : candidate ∈ rest := by
        rcases List.mem_cons.mp hmem with h | h
        · exact absurd h.symm hb
        · exact h
      cases hg : pub.GetMatchedRelease (downloadPreCompiledReleases.spec stemcell b) with
      | error x => simp [hg]
      | ok matched =>
        obtain ⟨r, found⟩ := matched
        cases found with
        | false =>
          simp only [hg, Run.call_ok, Run.wrapErr_ok, Run.bind_mk_ok, Bool.not_false, if_true]
          exact ih _ _ hrest
        | true =>
          cases hd : pub.DownloadRelease f.Options.ReleasesDir r
              DefaultDownloadThreadCount with
          | error x => simp [hg, hd]
          | ok loc =>
            simp only [hg, hd, Run.call_ok, Run.wrapErr_ok, Run.bind_mk_ok, Bool.not_true,
              Bool.false_eq_true, if_false]
            exact ih _ _ hrest

/-- The loop of `downloadPreCompiledReleases` returns the wrapped error of
`DownloadRelease` at the first candidate it does not get past, when that candidate is
matched and its download fails. -/
theorem downloadPreCompiledReleases.loop_first_failed_download {K : Type}
    (f : CompileBuiltReleases K) (pub : MultiReleaseSource) (stemcell : Stemcell)
    (pre post : List Remote) (candidate remote : Remote) (e : Error)
    (accP : List remoteReleaseWithSHA1) (accR : List Remote)
    (hpre : ∀ b ∈ pre, passesCacheResolution f pub stemcell b = true)
    (hmatch : pub.GetMatchedRelease (downloadPreCompiledReleases.spec stemcell candidate) =
      .ok (remote, true))
    (hfail : pub.DownloadRelease f.Options.ReleasesDir remote DefaultDownloadThreadCount =
      .error e) :
    (downloadPreCompiledReleases.loop f pub stemcell (pre ++ candidate :: post)
      accP accR).outcome =
      .error (.wrap ("error downloading pre-compiled release for " ++
        quote candidate.ID.Name) e) := by
  induction pre generalizing accP accR with
  | nil =>
    simp [downloadPreCompiledReleases.loop, hmatch, hfail]
  | cons b rest ih =>
    have hb := hpre b (List.mem_cons_self _ _)
    have hrest : ∀ x ∈ rest, passesCacheResolution f pub stemcell x = true :=
      fun x hx => hpre x (List.mem_cons_of_mem _ hx)
    rw [List.cons_append]
    unfold downloadPreCompiledReleases.loop
    unfold passesCacheResolution at hb
    cases hg : pub.GetMatchedRelease (downloadPreCompiledReleases.spec stemcell b) with
    | error x => rw [hg] at hb; simp at hb
    | ok matched =>
      obtain ⟨r, found⟩ := matched
      cases found with
      | false =>
        simp only [hg, Run.call_ok, Run.wrapErr_ok, Run.bind_mk_ok, Bool.not_false, if_true]
        exact ih _ _ hrest
      | true =>
        cases hd : pub.DownloadRelease f.Options.ReleasesDir r
            DefaultDownloadThreadCount with
        | error x => rw [hg] at hb; simp [hd] at hb
        | ok loc =>
          simp only [hg, hd, Run.call_ok, Run.wrapErr_ok, Run.bind_mk_ok, Bool.not_true,
            Bool.false_eq_true, if_false]
          exact ih _ _ hrest

/-- C11: in a run of `Execute`, when `GetMatchedRelease` reports a match for a build
candidate and `DownloadRelease` fails for that match, then for every list of build
candidates that holds the candidate, `downloadPreCompiledReleases` returns an error
(the return `nil, nil, err`: no list is returned); it is the wrapped error of
`DownloadRelease` when the candidates before it are resolved or deferred without
error; the candidate is not among the candidates reported not found, which are the
ones that go to the remaining list; and when the list is the one `findBuiltReleases`
returned, `Execute` returns that error without invoking `BoshDirectorFactory` or
`FindDeployment`, and without saving the lock. -/
theorem downloadPreCompiledReleases_failed_download {K : Type} (rt : Runtime)
    (f : CompileBuiltReleases K) (args : List String) (options : Options) (kilnfile : K)
    (kilnfileLock : KilnfileLock) (uploader : ReleaseUploader)
    (candidate remote : Remote) (e : Error)
    (hparse : rt.Parse f.Options args = .ok options)
    (hload : f.KilnfileLoader.LoadKilnfiles options.Kilnfile options.VariablesFiles
      options.Variables = .ok (kilnfile, kilnfileLock))
    (hfinder : f.ReleaseUploaderFinder kilnfile options.UploadTargetID = .ok uploader)
    (hmatch : (f.MultiReleaseSourceProvider kilnfile true).GetMatchedRelease
      (downloadPreCompiledReleases.spec kilnfileLock.Stemcell candidate) = .ok (remote, true))
    (hfail : (f.MultiReleaseSourceProvider kilnfile true).DownloadRelease
      options.ReleasesDir remote DefaultDownloadThreadCount = .error e) :
    ∀ builtReleases : List Remote, candidate ∈ builtReleases →
      ∃ err,
        (downloadPreCompiledReleases { f with Options := options }
          (f.MultiReleaseSourceProvider kilnfile true) builtReleases
          kilnfileLock.Stemcell).outcome = .error err ∧
        (∀ pre post, builtReleases = pre ++ candidate :: post →
          (∀ b ∈ pre, passesCacheResolution { f with Options := options }
            (f.MultiReleaseSourceProvider kilnfile true) kilnfileLock.Stemcell b = true) →
          err = .wrap ("error downloading pre-compiled release for " ++
            quote candidate.ID.Name) e) ∧
        candidate ∉ builtReleases.filter
          (reportedNotFound (f.MultiReleaseSourceProvider kilnfile true)
            kilnfileLock.Stemcell) ∧
        (findBuiltReleases (f.MultiReleaseSourceProvider kilnfile false) kilnfileLock =
            (builtReleases, none) →
          (Execute rt f args).outcome = .error err ∧
          invocations .BoshDirectorFactory (Execute rt f args).trace = 0 ∧
          invocations .FindDeployment (Execute rt f args).trace = 0 ∧
          invocations .SaveKilnfileLock (Execute rt f args).trace = 0) := by
  intro builtReleases hmem
  have hfail2 : (f.MultiReleaseSourceProvider kilnfile true).DownloadRelease
      ({ f with Options := options } : CompileBuiltReleases K).Options.ReleasesDir remote
      DefaultDownloadThreadCount = .error e := hfail
  obtain ⟨err, herr⟩ := downloadPreCompiledReleases.loop_error_of_failed_download
    { f with Options := options } (f.MultiReleaseSourceProvider kilnfile true)
    kilnfileLock.Stemcell builtReleases candidate remote e [] [] hmem hmatch hfail2
  have hP : (downloadPreCompiledReleases { f with Options := options }
      (f.MultiReleaseSourceProvider kilnfile true) builtReleases
      kilnfileLock.Stemcell).outcome = .error err := herr
  refine ⟨err, hP, ?_, ?_, ?_⟩
  · intro pre post hsplit hpre
    have hfirst := downloadPreCompiledReleases.loop_first_failed_download
      { f with Options := options } (f.MultiReleaseSourceProvider kilnfile true)
      kilnfileLock.Stemcell pre post candidate remote e [] [] hpre hmatch hfail2
    rw [← hsplit, herr] at hfirst
    exact Outcome.error.inj hfirst
  · intro hin
    have := (List.mem_filter.mp hin).2
    unfold reportedNotFound at this
    rw [hmatch] at this
    simp at this
  · intro hfb
    have hne : builtReleases ≠ [] := by
      intro h
      rw [h] at hmem
      simp at hmem
    have honly := downloadPreCompiledReleases_only { f with Options := options }
      (f.MultiReleaseSourceProvider kilnfile true) builtReleases kilnfileLock.Stemcell
    rw [Execute_of_setup rt f args options kilnfile kilnfileLock uploader hparse hload
        hfinder,
      Execute.classify_resolve _ _ _ _ _ _ builtReleases hfb hne]
    unfold Execute.resolve
    rw [Run.bind_error _ _ err hP]
    refine ⟨rfl, ?_, ?_, ?_⟩
    · show invocations .BoshDirectorFactory (.LoadKilnfiles options.Kilnfile :: _) = 0
      rw [invocations_cons_LoadKilnfiles _ _ _ (by decide)]
      exact invocations_eq_zero_of_only _ _ _ honly (by decide)
    · show invocations .FindDeployment (.LoadKilnfiles options.Kilnfile :: _) = 0
      rw [invocations_cons_LoadKilnfiles _ _ _ (by decide)]
      exact invocations_eq_zero_of_only _ _ _ honly (by decide)
    · show invocations .SaveKilnfileLock (.LoadKilnfiles options.Kilnfile :: _) = 0
      rw [invocations_cons_LoadKilnfiles _ _ _ (by decide)]
      exact invocations_eq_zero_of_only _ _ _ honly (by decide)

/-- C11 on the lock `[a, b]` when the cache offers `b` and fails to deliver it: the
run ends after the search and the failed download. -/
theorem downloadPreCompiledReleases_failed_download_witness :
    (∃ err,
      (downloadPreCompiledReleases
        { demoCommandBrokenCache with Options := demoOptions }
        (demoCommandBrokenCache.MultiReleaseSourceProvider () true)
        [findBuiltReleases.remoteOf demoLockB] demoLock.Stemcell).outcome = .error err ∧
      (∀ pre post, [findBuiltReleases.remoteOf demoLockB] =
          pre ++ findBuiltReleases.remoteOf demoLockB :: post →
        (∀ b ∈ pre, passesCacheResolution
          { demoCommandBrokenCache with Options := demoOptions }
          (demoCommandBrokenCache.MultiReleaseSourceProvider () true)
          demoLock.Stemcell b = true) →
        err = .wrap ("error downloading pre-compiled release for " ++
          quote (findBuiltReleases.remoteOf demoLockB).ID.Name) (.msg "download failed")) ∧
      findBuiltReleases.remoteOf demoLockB ∉ [findBuiltReleases.remoteOf demoLockB].filter
        (reportedNotFound (demoCommandBrokenCache.MultiReleaseSourceProvider () true)
          demoLock.Stemcell) ∧
      (findBuiltReleases (demoCommandBrokenCache.MultiReleaseSourceProvider () false)
          demoLock = ([findBuiltReleases.remoteOf demoLockB], none) →
        (Execute demoRuntimeOk demoCommandBrokenCache []).outcome = .error err ∧
        invocations .BoshDirectorFactory
          (Execute demoRuntimeOk demoCommandBrokenCache []).trace = 0 ∧
        invocations .FindDeployment
          (Execute demoRuntimeOk demoCommandBrokenCache []).trace = 0 ∧
        invocations .SaveKilnfileLock
          (Execute demoRuntimeOk demoCommandBrokenCache []).trace = 0)) ∧
    findBuiltReleases (demoCommandBrokenCache.MultiReleaseSourceProvider () false) demoLock =
      ([findBuiltReleases.remoteOf demoLockB], none) ∧
    Execute demoRuntimeOk demoCommandBrokenCache [] =
      { outcome := .error (.wrap
          ("error downloading pre-compiled release for " ++ quote "b")
          (.msg "download failed")),
        trace := [.LoadKilnfiles "Kilnfile",
          .GetMatchedRelease
            { Name := "b", Version := "2", StemcellOS := "os", StemcellVersion := "1" },
          .DownloadRelease "releases"
            { ID := { Name := "b", Version := "2" }, SourceID := "compiled",
              RemotePath := "b-2-os-1.tgz" }] } :=
  ⟨downloadPreCompiledReleases_failed_download demoRuntimeOk demoCommandBrokenCache []
      demoOptions () demoLock demoUploader (findBuiltReleases.remoteOf demoLockB)
      { ID := { Name := "b", Version := "2" }, SourceID := "compiled",
        RemotePath := "b-2-os-1.tgz" }
      (.msg "download failed") rfl rfl rfl rfl rfl
      [findBuiltReleases.remoteOf demoLockB] (by decide),
    by decide, by decide⟩

/-! ## How often a compilation session is created -/

theorem invocations_bind_only {α β : Type} (cs : List Call) (c : Call) (r : Run α)
    (k : α → Run β) (hk : ∀ a, Run.only cs (k a)) (hc : c ∉ cs) :
    invocations c (Run.bind r k).trace = invocations c r.trace := by
  rw [Run.trace_bind, invocations_append]
  cases r.outcome with
  | ok a => simp [invocations_eq_zero_of_only cs (k a) c (hk a) hc]
  | error e => simp
  | panic e => simp

theorem invocations_bind_le {α β : Type} (c : Call) (n : Nat) (r : Run α)
    (k : α → Run β) (hk : ∀ a, invocations c (k a).trace ≤ n) :
    invocations c (Run.bind r k).trace ≤ invocations c r.trace + n := by
  rw [Run.trace_bind, invocations_append]
  cases r.outcome with
  | ok a => simpa using hk a
  | error e => simp
  | panic e => simp

/-- The part of `compileAndDownloadReleases` after `FindDeployment` invokes neither
`BoshDirectorFactory` nor `FindDeployment`. -/
theorem compileAndDownloadReleases.deploy_only {K : Type} (rt : Runtime)
    (f : CompileBuiltReleases K) (director : BoshDirector) (releaseIDs : List ID)
    (stemcellManifest : StemcellManifest) (deploymentName : String)
    (deployment : Deployment) :
    Run.only [.Update, .ExportRelease, .DownloadResourceUnchecked, .VerifyFilePath,
        .Delete, .CleanUp]
      (Run.bind
        (Run.wrapErr "couldn't generate bosh manifest"
          (Run.ofExcept (rt.Generate deploymentName releaseIDs stemcellManifest)))
        fun manifest =>
          Run.bind
            (Run.wrapErr "updating the bosh deployment"
              (Run.call (.Update manifest) (deployment.Update manifest)))
            fun _ =>
              Run.deferring
                (Run.bind
                  (downloadCompiledReleases rt f stemcellManifest releaseIDs deployment
                    director)
                  fun downloadedReleases => Run.pure (downloadedReleases, stemcellManifest))
                (compileAndDownloadReleases.deferred deployment director)) := by
  apply Run.only_bind
  · exact Run.only_wrapErr _ _ _ (Run.only_ofExcept _ _)
  intro manifest
  apply Run.only_bind
  · exact Run.only_wrapErr _ _ _ (Run.only_call _ _ _ (by simp [Event.call]))
  intro _
  apply Run.only_deferring
  · apply Run.only_bind
    · exact Run.only_mono _ _ _ (downloadCompiledReleases_only _ _ _ _ _ _) (by decide)
    · intro _
      exact Run.only_pure _ _
  · exact Run.only_mono _ _ _ (compileAndDownloadReleases.deferred_only _ _) (by decide)

/-- Every run of `compileAndDownloadReleases` invokes `BoshDirectorFactory` exactly
once. -/
theorem compileAndDownloadReleases.director_once {K : Type} (rt : Runtime)
    (f : CompileBuiltReleases K) (releaseSource : MultiReleaseSource)
    (builtReleases : List Remote) :
    invocations .BoshDirectorFactory
      (compileAndDownloadReleases rt f releaseSource builtReleases).trace = 1 := by
  unfold compileAndDownloadReleases
  refine (invocations_bind_only [.DownloadRelease, .UploadReleaseFile, .UploadStemcellFile,
    .FindDeployment, .Update, .ExportRelease, .DownloadResourceUnchecked, .VerifyFilePath,
    .Delete, .CleanUp] _ _ _ ?_ (by decide)).trans ?_
  · intro director
    apply Run.only_bind
    · exact Run.only_mono _ _ _ (uploadReleasesToDirector_only _ _ _ _ _) (by decide)
    intro releaseIDs
    apply Run.only_bind
    · exact Run.only_mono _ _ _ (uploadStemcellToDirector_only _ _ _) (by decide)
    intro stemcellManifest
    apply Run.only_bind
    · exact Run.only_mono _ _ _ (compileAndDownloadReleases.mustNewRandom_only rt)
        (by decide)
    intro id
    apply Run.only_bind
    · exact Run.only_wrapErr _ _ _ (Run.only_call _ _ _ (by simp [Event.call]))
    intro deployment
    exact Run.only_mono _ _ _
      (compileAndDownloadReleases.deploy_only rt f director releaseIDs stemcellManifest _
        deployment) (by decide)
  · simp [invocations_singleton, Event.call]

/-- Every run of `compileAndDownloadReleases` invokes `FindDeployment` at most once. -/
theorem compileAndDownloadReleases.findDeployment_le_one {K : Type} (rt : Runtime)
    (f : CompileBuiltReleases K) (releaseSource : MultiReleaseSource)
    (builtReleases : List Remote) :
    invocations .FindDeployment
      (compileAndDownloadReleases rt f releaseSource builtReleases).trace ≤ 1 := by
  unfold compileAndDownloadReleases
  refine le_trans (invocations_bind_le _ 1 _ _ ?_) (by simp [invocations_singleton, Event.call])
  intro director
  refine le_trans (invocations_bind_le _ 1 _ _ ?_) ?_
  swap
  · rw [invocations_eq_zero_of_only _ _ _ (uploadReleasesToDirector_only _ _ _ _ _)
      (by decide)]
  intro releaseIDs
  refine le_trans (invocations_bind_le _ 1 _ _ ?_) ?_
  swap
  · rw [invocations_eq_zero_of_only _ _ _ (uploadStemcellToDirector_only _ _ _)
      (by decide)]
  intro stemcellManifest
  refine le_trans (invocations_bind_le _ 1 _ _ ?_) ?_
  swap
  · rw [invocations_eq_zero_of_only _ _ _ (compileAndDownloadReleases.mustNewRandom_only rt)
      (by decide)]
  intro id
  refine le_of_eq ((invocations_bind_only [.Update, .ExportRelease,
    .DownloadResourceUnchecked, .VerifyFilePath, .Delete, .CleanUp] _ _ _ ?_
    (by decide)).trans ?_)
  · intro deployment
    exact compileAndDownloadReleases.deploy_only rt f director releaseIDs stemcellManifest _
      deployment
  · simp [invocations_singleton, Event.call]

/-- A run of `compileAndDownloadReleases` that obtains the director, uploads the
releases and the stemcell to it and draws a deployment name invokes `FindDeployment`
exactly once. -/
theorem compileAndDownloadReleases.findDeployment_once {K : Type} (rt : Runtime)
    (f : CompileBuiltReleases K) (releaseSource : MultiReleaseSource)
    (builtReleases : List Remote) (director : BoshDirector) (releaseIDs : List ID)
    (stemcellManifest : StemcellManifest) (id : String)
    (hdirector : f.BoshDirectorFactory = .ok director)
    (hreleases : (uploadReleasesToDirector rt f builtReleases releaseSource
      director).outcome = .ok releaseIDs)
    (hstemcell : (uploadStemcellToDirector rt f director).outcome = .ok stemcellManifest)
    (hid : rt.NewRandom = .ok id) :
    invocations .FindDeployment
      (compileAndDownloadReleases rt f releaseSource builtReleases).trace = 1 := by
  have hup := invocations_eq_zero_of_only _ _ Call.FindDeployment
    (uploadReleasesToDirector_only rt f builtReleases releaseSource director) (by decide)
  have hst := invocations_eq_zero_of_only _ _ Call.FindDeployment
    (uploadStemcellToDirector_only rt f director) (by decide)
  have hrandom : compileAndDownloadReleases.mustNewRandom rt = ⟨.ok id, []⟩ := by
    unfold compileAndDownloadReleases.mustNewRandom
    rw [hid]; rfl
  unfold compileAndDownloadReleases
  rw [hdirector, Run.call_ok, Run.wrapErr_ok, Run.bind_mk_ok,
    Run.bind_ok _ _ _ hreleases, Run.bind_ok _ _ _ hstemcell, hrandom, Run.bind_mk_ok]
  simp only [invocations_append, hup, hst, invocations_singleton, Event.call]
  rw [invocations_bind_only [.Update, .ExportRelease, .DownloadResourceUnchecked,
    .VerifyFilePath, .Delete, .CleanUp] _ _ _
    (fun deployment => compileAndDownloadReleases.deploy_only rt f director releaseIDs
      stemcellManifest _ deployment) (by decide)]
  simp [invocations_singleton, Event.call]

/-- In a run of `Execute` that reaches the end of cache resolution, the director
factory and `FindDeployment` are invoked as often as in the block that compiles the
remaining releases. -/
theorem Execute_invocations_of_cache_resolved {K : Type} (rt : Runtime)
    (f : CompileBuiltReleases K) (args : List String) (options : Options) (kilnfile : K)
    (kilnfileLock : KilnfileLock) (uploader : ReleaseUploader) (built : List Remote)
    (pre : List remoteReleaseWithSHA1) (rem : List Remote) (c : Call)
    (hc : c ∉ [Call.LoadKilnfiles, Call.GetMatchedRelease, Call.DownloadRelease,
      Call.SaveKilnfileLock])
    (hparse : rt.Parse f.Options args = .ok options)
    (hload : f.KilnfileLoader.LoadKilnfiles options.Kilnfile options.VariablesFiles
      options.Variables = .ok (kilnfile, kilnfileLock))
    (hfinder : f.ReleaseUploaderFinder kilnfile options.UploadTargetID = .ok uploader)
    (hfb : findBuiltReleases (f.MultiReleaseSourceProvider kilnfile false) kilnfileLock =
      (built, none))
    (hne : built ≠ [])
    (hP : (downloadPreCompiledReleases { f with Options := options }
      (f.MultiReleaseSourceProvider kilnfile true) built kilnfileLock.Stemcell).outcome =
        .ok (pre, rem)) :
    invocations c (Execute rt f args).trace =
      invocations c (Execute.compileRemaining rt { f with Options := options }
        (f.MultiReleaseSourceProvider kilnfile false) uploader pre rem).trace := by
  have hcl : c ≠ .LoadKilnfiles := fun h => hc (by simp [h])
  have hcs : c ∉ [Call.SaveKilnfileLock] := fun h => hc (by simp at h; simp [h])
  have hcp : c ∉ [Call.GetMatchedRelease, Call.DownloadRelease] := by
    intro h
    apply hc
    simp only [List.mem_cons, List.mem_singleton, List.not_mem_nil, or_false] at h ⊢
    rcases h with h | h
    · exact Or.inr (Or.inl h)
    · exact Or.inr (Or.inr (Or.inl h))
  rw [Execute_of_setup rt f args options kilnfile kilnfileLock uploader hparse hload hfinder,
    Execute.classify_resolve _ _ _ _ _ _ built hfb hne]
  show invocations c (.LoadKilnfiles options.Kilnfile :: _) = _
  rw [invocations_cons_LoadKilnfiles _ _ _ hcl]
  unfold Execute.resolve
  rw [Run.bind_ok _ _ (pre, rem) hP]
  simp only [invocations_append]
  rw [invocations_eq_zero_of_only _ _ _
      (downloadPreCompiledReleases_only { f with Options := options }
        (f.MultiReleaseSourceProvider kilnfile true) built kilnfileLock.Stemcell) hcp,
    invocations_bind_only [.SaveKilnfileLock] c _ _
      (fun updated => updateLockfile_only _ updated kilnfileLock) hcs]
  simp

/-- C12, as the code behaves: in a run of `Execute` that reaches the end of cache
resolution, when every build candidate was resolved from a publishable source,
`BoshDirectorFactory` and `FindDeployment` are not invoked; when at least one
candidate had no cache match, however many there are, `BoshDirectorFactory` is
invoked exactly once and `FindDeployment` at most once, and exactly once when the
director is obtained, the releases and the stemcell are uploaded to it and a
deployment name is drawn. -/
theorem Execute_session_once {K : Type} (rt : Runtime)
    (f : CompileBuiltReleases K) (args : List String) (options : Options) (kilnfile : K)
    (kilnfileLock : KilnfileLock) (uploader : ReleaseUploader) (built : List Remote)
    (pre : List remoteReleaseWithSHA1) (rem : List Remote)
    (hparse : rt.Parse f.Options args = .ok options)
    (hload : f.KilnfileLoader.LoadKilnfiles options.Kilnfile options.VariablesFiles
      options.Variables = .ok (kilnfile, kilnfileLock))
    (hfinder : f.ReleaseUploaderFinder kilnfile options.UploadTargetID = .ok uploader)
    (hfb : findBuiltReleases (f.MultiReleaseSourceProvider kilnfile false) kilnfileLock =
      (built, none))
    (hne : built ≠ [])
    (hP : (downloadPreCompiledReleases { f with Options := options }
      (f.MultiReleaseSourceProvider kilnfile true) built kilnfileLock.Stemcell).outcome =
        .ok (pre, rem)) :
    (rem = [] →
      invocations .BoshDirectorFactory (Execute rt f args).trace = 0 ∧
      invocations .FindDeployment (Execute rt f args).trace = 0) ∧
    (rem ≠ [] →
      invocations .BoshDirectorFactory (Execute rt f args).trace = 1 ∧
      invocations .FindDeployment (Execute rt f args).trace ≤ 1 ∧
      ∀ (director : BoshDirector) (releaseIDs : List ID)
        (stemcellManifest : StemcellManifest) (id : String),
        f.BoshDirectorFactory = .ok director →
        (uploadReleasesToDirector rt { f with Options := options } rem
          (f.MultiReleaseSourceProvider kilnfile false) director).outcome = .ok releaseIDs →
        (uploadStemcellToDirector rt { f with Options := options } director).outcome =
          .ok stemcellManifest →
        rt.NewRandom = .ok id →
        invocations .FindDeployment (Execute rt f args).trace = 1) := by
  have hB := Execute_invocations_of_cache_resolved rt f args options kilnfile kilnfileLock
    uploader built pre rem .BoshDirectorFactory (by decide) hparse hload hfinder hfb hne hP
  have hF := Execute_invocations_of_cache_resolved rt f args options kilnfile kilnfileLock
    uploader built pre rem .FindDeployment (by decide) hparse hload hfinder hfb hne hP
  rw [hB, hF]
  constructor
  · intro hrem
    subst hrem
    rw [Execute.compileRemaining_nil]
    exact ⟨rfl, rfl⟩
  · intro hrem
    have honly : ∀ compiled : List Local × StemcellManifest,
        Run.only [.UploadRelease]
          (Run.bind (uploadCompiledReleases rt compiled.1 uploader compiled.2)
            fun uploadedReleases => Run.pure (pre ++ uploadedReleases)) := by
      intro compiled
      apply Run.only_bind
      · exact uploadCompiledReleases_only _ _ _ _
      · intro _
        exact Run.only_pure _ _
    rw [Execute.compileRemaining_cons _ _ _ _ _ _ hrem,
      invocations_bind_only [.UploadRelease] .BoshDirectorFactory _ _ honly (by decide),
      invocations_bind_only [.UploadRelease] .FindDeployment _ _ honly (by decide)]
    refine ⟨compileAndDownloadReleases.director_once _ _ _ _,
      compileAndDownloadReleases.findDeployment_le_one _ _ _ _, ?_⟩
    intro director releaseIDs stemcellManifest id hdirector hreleases hstemcell hid
    exact compileAndDownloadReleases.findDeployment_once rt { f with Options := options }
      (f.MultiReleaseSourceProvider kilnfile false) rem director releaseIDs
      stemcellManifest id hdirector hreleases hstemcell hid

/-- The amended C12 on two runs over the lock `[a, b]`: when the cache offers `b`
no session is created; when `b` has to be compiled, the director factory and
`FindDeployment` are invoked once each. -/
theorem Execute_session_once_witness :
    (invocations .BoshDirectorFactory (Execute demoRuntimeOk demoCommandOk []).trace = 0 ∧
      invocations .FindDeployment (Execute demoRuntimeOk demoCommandOk []).trace = 0) ∧
    invocations .BoshDirectorFactory
      (Execute demoRuntimeOk (demoCommandBuild (.ok ())) []).trace = 1 ∧
    invocations .FindDeployment
      (Execute demoRuntimeOk (demoCommandBuild (.ok ())) []).trace = 1 :=
  ⟨(Execute_session_once demoRuntimeOk demoCommandOk [] demoOptions () demoLock
      demoUploader [findBuiltReleases.remoteOf demoLockB] [demoResolvedB] []
      rfl rfl rfl (by decide) (by decide) (by decide)).1 rfl,
   ((Execute_session_once demoRuntimeOk (demoCommandBuild (.ok ())) [] demoOptions ()
      demoLock demoUploader [findBuiltReleases.remoteOf demoLockB] []
      [findBuiltReleases.remoteOf demoLockB]
      rfl rfl rfl (by decide) (by decide) (by decide)).2 (by decide)).1,
   ((Execute_session_once demoRuntimeOk (demoCommandBuild (.ok ())) [] demoOptions ()
      demoLock demoUploader [findBuiltReleases.remoteOf demoLockB] []
      [findBuiltReleases.remoteOf demoLockB]
      rfl rfl rfl (by decide) (by decide) (by decide)).2 (by decide)).2.2
      (demoDirector (.ok ()) (.ok ())) [{ Name := "b", Version := "2" }]
      { OperatingSystem := "os", Version := "1" } "0000" rfl (by decide) (by decide) rfl⟩

/-- C12 fails on the code: on the lock `[a, b]`, when no cache offers `b` and the
director cannot be reached, the run gets to the end of cache resolution with `b`
remaining, invokes `BoshDirectorFactory` once and returns its error; `FindDeployment`
is never invoked. -/
theorem Execute_no_director_no_deployment :
    (downloadPreCompiledReleases demoCommandNoDirector demoSourcesNoMatch
        [findBuiltReleases.remoteOf demoLockB] demoLock.Stemcell).outcome =
      .ok ([], [findBuiltReleases.remoteOf demoLockB]) ∧
    Execute demoRuntimeOk demoCommandNoDirector [] =
      { outcome := .error (.wrap "unable to connect to bosh director" (.msg "no director")),
        trace := [.LoadKilnfiles "Kilnfile",
          .GetMatchedRelease
            { Name := "b", Version := "2", StemcellOS := "os", StemcellVersion := "1" },
          .BoshDirectorFactory] } ∧
    invocations .BoshDirectorFactory
      (Execute demoRuntimeOk demoCommandNoDirector []).trace = 1 ∧
    invocations .FindDeployment
      (Execute demoRuntimeOk demoCommandNoDirector []).trace = 0 := by
  decide

/-! ## An empty version -/

/-- On a lock whose release `b` has an empty version and must be compiled, the run
deploys, then panics when the release slug is built: nothing is exported, the
deferred function deletes the deployment, and the lock is not saved. -/
theorem Execute_empty_version_panics :
    Execute demoRuntimeOk
        (demoCommand demoLockEmptyVersion demoSourcesNoMatch (.ok demoUploader)
          (.ok ()) (.ok ()) (.ok ())) [] =
      { outcome := .panic (.msg "Expected release version to be non-empty"),
        trace := [.LoadKilnfiles "Kilnfile",
          .GetMatchedRelease
            { Name := "b", Version := "", StemcellOS := "os", StemcellVersion := "1" },
          .BoshDirectorFactory,
          .DownloadRelease "releases"
            { ID := { Name := "b", Version := "" }, SourceID := "built",
              RemotePath := "b-2.tgz" },
          .UploadReleaseFile { path := "releases/b-2.tgz" },
          .UploadStemcellFile { path := "stemcell.tgz" },
          .FindDeployment "compile-built-releases-0000",
          .Update "manifest",
          .Delete,
          .CleanUp] } := by
  decide

end Kiln
